import Mathlib

/-!
Golang HA server: request handlers, metrics and routing.

A shallow embedding of `application/golang-server/main.go`: the environment
lookup `getEnv`, the three handlers, the three Prometheus instruments and the
route table built by `main`.  Library calls made by the program (`fmt.Sprintf`,
the default `http.ServeMux`, the response writer, the Prometheus instruments)
are modelled next to the program code that uses them.
-/

namespace GolangServer

/-! ## Process environment -/

/-- The process environment as `os.LookupEnv` sees it: `none` is an unset variable. -/
abbrev Env := String → Option String

/-- Go `os.Getenv`: the value of the variable, the empty string when it is unset. -/
def osGetenv (env : Env) (key : String) : String :=
  (env key).getD ""

/-- Source `getEnv` (main.go 150-155). -/
def getEnv (env : Env) (key defaultValue : String) : String :=
  let value := osGetenv env key
  if value ≠ "" then value else defaultValue

/-! ## fmt.Sprintf on string operands -/

/-- Characters that open a flag, an argument index, a width or a precision after `%`. -/
def isModifier (c : Char) : Bool :=
  c ∈ ['#', '0', '+', '-', ' ', '[', '*', '.'] || c.isDigit

/-- Go `fmt`: the report of operands left over once the format is exhausted. -/
def extraArgs : List (List Char) → List Char
  | [] => []
  | a :: as =>
    "%!(EXTRA ".data
      ++ (", ".data).intercalate ((a :: as).map (fun x => "string=".data ++ x))
      ++ [')']

/-- Go `fmt` printing one string operand under verb `v`: `%s` and `%v` print it
as it is, `%T` prints its type, and a verb that strings do not have prints
`%!v(string=operand)`.  The verbs `x`, `X`, `q` and `w` are outside the model. -/
def printArg (v : Char) (a : List Char) : Option (List Char) :=
  if v = 's' ∨ v = 'v' then some a
  else if v = 'T' then some "string".data
  else if v = 'x' ∨ v = 'X' ∨ v = 'q' ∨ v = 'w' then none
  else some ('%' :: '!' :: v :: "(string=".data ++ a ++ [')'])

/-- Go `fmt` `doPrintf` when every operand is a string: literal text is copied,
`%%` prints a percent sign, any other character after `%` is a verb and takes
the next operand (`%!v(MISSING)` when none is left), a `%` that ends the format
prints `%!(NOVERB)`, and operands left at the end are reported by `extraArgs`.
Directives with flags, width, precision or argument index are outside the
model (`none`). -/
def doPrintf : List Char → List (List Char) → Option (List Char)
  | [], args => some (extraArgs args)
  | c :: cs, args =>
    if c ≠ '%' then (doPrintf cs args).map (c :: ·)
    else
      match cs with
      | [] => some ("%!(NOVERB)".data ++ extraArgs args)
      | v :: rest =>
        if v = '%' then (doPrintf rest args).map ('%' :: ·)
        else if isModifier v then none
        else
          match args with
          | [] => (doPrintf rest []).map ('%' :: '!' :: v :: "(MISSING)".data ++ ·)
          | a :: as => do
            let shown ← printArg v a
            let tail ← doPrintf rest as
            pure (shown ++ tail)

/-- Go `fmt.Sprintf` restricted to string operands. -/
def Sprintf (format : String) (args : List String) : Option String :=
  (doPrintf format.data (args.map String.data)).map String.mk

/-- The format string of the page (main.go 62-120), cut at its directives: each
source line is one line here, and a line with a directive is cut before and
after it. -/
def pageEntries : List String := [
  "\n",
  "<!DOCTYPE html>\n",
  "<html>\n",
  "<head>\n",
  "    <title>Golang HA Server</title>\n",
  "    <style>\n",
  "        body \x7b font-family: Arial, sans-serif; margin: 40px; background: linear-gradient(135deg, #667eea 0", "%,", " #764ba2 100", "%)", "; color: white; \x7d\n",
  "        .container \x7b max-width: 800px; margin: 0 auto; background: rgba(255,255,255,0.1); padding: 30px; border-radius: 10px; backdrop-filter: blur(10px); \x7d\n",
  "        h1 \x7b color: #fff; text-align: center; margin-bottom: 30px; \x7d\n",
  "        .info \x7b background: rgba(255,255,255,0.2); padding: 20px; border-radius: 8px; margin: 20px 0; \x7d\n",
  "        .metric \x7b display: inline-block; margin: 10px; padding: 10px; background: rgba(255,255,255,0.1); border-radius: 5px; \x7d\n",
  "        .status \x7b color: #4CAF50; font-weight: bold; \x7d\n",
  "    </style>\n",
  "</head>\n",
  "<body>\n",
  "    <div class=\"container\">\n",
  "        <h1>🚀 Golang High Availability Server</h1>\n",
  "        <div class=\"info\">\n",
  "            <h2>Server Information</h2>\n",
  "            <div class=\"metric\">\n",
  "                <strong>Timestamp:</strong> ", "%s", "\n",
  "            </div>\n",
  "            <div class=\"metric\">\n",
  "                <strong>Status:</strong> <span class=\"status\">✅ Healthy</span>\n",
  "            </div>\n",
  "            <div class=\"metric\">\n",
  "                <strong>Version:</strong> 1.0.0\n",
  "            </div>\n",
  "            <div class=\"metric\">\n",
  "                <strong>Environment:</strong> ", "%s", "\n",
  "            </div>\n",
  "        </div>\n",
  "        <div class=\"info\">\n",
  "            <h2>Request Details</h2>\n",
  "            <div class=\"metric\">\n",
  "                <strong>Method:</strong> ", "%s", "\n",
  "            </div>\n",
  "            <div class=\"metric\">\n",
  "                <strong>Path:</strong> ", "%s", "\n",
  "            </div>\n",
  "            <div class=\"metric\">\n",
  "                <strong>User Agent:</strong> ", "%s", "\n",
  "            </div>\n",
  "            <div class=\"metric\">\n",
  "                <strong>Remote Address:</strong> ", "%s", "\n",
  "            </div>\n",
  "        </div>\n",
  "        <div class=\"info\">\n",
  "            <h2>System Information</h2>\n",
  "            <div class=\"metric\">\n",
  "                <strong>Hostname:</strong> ", "%s", "\n",
  "            </div>\n",
  "            <div class=\"metric\">\n",
  "                <strong>Uptime:</strong> ", "%s", "\n",
  "            </div>\n",
  "        </div>\n",
  "    </div>\n",
  "</body>\n",
  "</html>"]

/-- The format string passed to `fmt.Sprintf` in `appHandler`. -/
def pageTemplate : String := String.join pageEntries

/-! ## Time -/

/-- A wall-clock instant (`time.Time`), as nanoseconds since the Unix epoch. -/
abbrev Time := Int

/-- The library functions whose output depends on the locale or on the Go
release; the handlers are parametric in them. -/
structure Lib where
  /-- Go `Time.Format(layout)`. -/
  format : String → Time → String
  /-- Go `Duration.String()`, on a non-negative number of nanoseconds. -/
  durationString : Nat → String
  /-- The status code with which the mux redirects to a cleaned path. -/
  redirectStatus : Nat
  /-- The URL written in the `Location` header of a redirect to a path. -/
  redirectLocation : String → String
  /-- The HTML note written in the body of a redirect to a path. -/
  redirectNote : String → String

/-- Clock readings taken during one run of `appHandler`.  `time.Since(start)`
compares monotonic readings, so an elapsed time is a non-negative number of
nanoseconds. -/
structure Readings where
  /-- Reading of `time.Now()` for the log line (main.go 54). -/
  logNow : Time
  /-- Reading of `time.Now()` for the page (main.go 121). -/
  renderNow : Time
  /-- Reading of `time.Since(start)` for the page (main.go 128). -/
  renderElapsed : Nat
  /-- Reading of `time.Since(start)` for the histogram (main.go 135). -/
  recordElapsed : Nat

/-- Go `Duration.Seconds()`, as an exact number. -/
def seconds (nanos : Nat) : ℚ := (nanos : ℚ) / 1000000000

/-! ## The three Prometheus instruments -/

/-- Children of a metric vector, keyed by their label values, in creation order. -/
abbrev Vec (α : Type) := List (List String × α)

/-- Go `WithLabelValues(lvs...)` followed by an update `f` of the child: the
child is created at `zero` on first use. -/
def Vec.update {α : Type} (zero : α) (f : α → α) (lvs : List String) : Vec α → Vec α
  | [] => [(lvs, f zero)]
  | (k, x) :: rest =>
    if k = lvs then (k, f x) :: rest else (k, x) :: Vec.update zero f lvs rest

/-- The child for the label values `lvs`, when it has been created. -/
def Vec.child {α : Type} (v : Vec α) (lvs : List String) : Option α :=
  (v.find? (fun kv => kv.1 = lvs)).map Prod.snd

/-- Value of the counter for `lvs`; a child that was never created counts 0. -/
def counterValue (v : Vec Nat) (lvs : List String) : Nat :=
  (Vec.child v lvs).getD 0

/-- Upper bounds of `prometheus.DefBuckets`, in seconds. -/
def defBuckets : List ℚ :=
  [5 / 1000, 1 / 100, 25 / 1000, 5 / 100, 1 / 10, 25 / 100, 5 / 10, 1, 25 / 10, 5, 10]

/-- One histogram child: observations per bucket, their sum and their number. -/
structure Histogram where
  buckets : List Nat
  sum : ℚ
  count : Nat

/-- A histogram child without observations. -/
def Histogram.empty : Histogram :=
  { buckets := defBuckets.map (fun _ => 0), sum := 0, count := 0 }

/-- Adds one to the first bucket whose upper bound is at least `v`. -/
def bumpBucket (v : ℚ) : List ℚ → List Nat → List Nat
  | b :: bs, n :: ns => if v ≤ b then (n + 1) :: ns else n :: bumpBucket v bs ns
  | _, ns => ns

/-- Go `Observe(v)`. -/
def Histogram.observe (v : ℚ) (h : Histogram) : Histogram :=
  { buckets := bumpBucket v defBuckets h.buckets, sum := h.sum + v, count := h.count + 1 }

/-- Observation count of the histogram for `lvs`. -/
def histCount (v : Vec Histogram) (lvs : List String) : Nat :=
  ((Vec.child v lvs).map Histogram.count).getD 0

/-- Sum of the observations of the histogram for `lvs`. -/
def histSum (v : Vec Histogram) (lvs : List String) : ℚ :=
  ((Vec.child v lvs).map Histogram.sum).getD 0

/-- The registered instruments (main.go 14-44). -/
structure Metrics where
  /-- `http_requests_total`, labels method, endpoint, status. -/
  httpRequestsTotal : Vec Nat
  /-- `http_request_duration_seconds`, labels method, endpoint. -/
  httpRequestDuration : Vec Histogram
  /-- `http_requests_in_flight`. -/
  httpRequestsInFlight : Int

/-- The registry at process start. -/
def Metrics.init : Metrics :=
  { httpRequestsTotal := [], httpRequestDuration := [], httpRequestsInFlight := 0 }

/-- Source `httpRequestsInFlight.Inc()`. -/
def Metrics.inFlightInc (m : Metrics) : Metrics :=
  { m with httpRequestsInFlight := m.httpRequestsInFlight + 1 }

/-- Source `httpRequestsInFlight.Dec()`. -/
def Metrics.inFlightDec (m : Metrics) : Metrics :=
  { m with httpRequestsInFlight := m.httpRequestsInFlight - 1 }

/-- Source `httpRequestsTotal.WithLabelValues(lvs...).Inc()`. -/
def Metrics.countRequest (m : Metrics) (lvs : List String) : Metrics :=
  { m with httpRequestsTotal := Vec.update 0 (· + 1) lvs m.httpRequestsTotal }

/-- Source `httpRequestDuration.WithLabelValues(lvs...).Observe(v)`. -/
def Metrics.observeDuration (m : Metrics) (lvs : List String) (v : ℚ) : Metrics :=
  { m with
    httpRequestDuration :=
      Vec.update Histogram.empty (Histogram.observe v) lvs m.httpRequestDuration }

/-! ## Requests and the response writer -/

/-- The fields of `*http.Request` that the program and the mux read. -/
structure Request where
  method : String
  /-- The host the route table sees. -/
  host : String
  /-- Go `r.URL.Path`, of a request whose path is sent without percent-escapes,
  so that it is also `r.URL.EscapedPath()`.  It is `*` exactly when the
  request line names `*` (`r.RequestURI == "*"`). -/
  path : String
  /-- Go `r.UserAgent()`. -/
  userAgent : String
  remoteAddr : String
  /-- Go `r.ProtoAtLeast(1, 1)`. -/
  protoAtLeast11 : Bool

/-- What the connection does with the body bytes handed to `Write`. -/
inductive WriteBehaviour where
  | succeeds
  | fails
  | panics
  deriving DecidableEq, Repr

/-- An `http.ResponseWriter`: the header map, the status line and header block
once sent, and the body bytes accepted so far. -/
structure ResponseWriter where
  conn : WriteBehaviour
  header : List (String × String)
  status : Option Nat
  sentHeader : List (String × String)
  body : String

/-- The writer a handler receives for a new request. -/
def ResponseWriter.fresh (conn : WriteBehaviour) : ResponseWriter :=
  { conn := conn, header := [], status := none, sentHeader := [], body := "" }

/-- Go `w.Header().Set(key, value)`, for a key in canonical form. -/
def ResponseWriter.setHeader (w : ResponseWriter) (key value : String) : ResponseWriter :=
  { w with header := w.header.filter (fun kv => kv.1 ≠ key) ++ [(key, value)] }

/-- Go `Header.Get(key)` on a header block. -/
def headerGet (h : List (String × String)) (key : String) : Option String :=
  (h.find? (fun kv => kv.1 = key)).map Prod.snd

/-- Go `w.WriteHeader(code)`: the first call sends the status line with the
header map as it stands; later calls are ignored. -/
def ResponseWriter.writeHeader (w : ResponseWriter) (code : Nat) : ResponseWriter :=
  match w.status with
  | some _ => w
  | none => { w with status := some code, sentHeader := w.header }

/-- How a call of `Write` ended. -/
inductive WriteResult where
  | ok (w : ResponseWriter)
  | err (w : ResponseWriter)
  | panic (w : ResponseWriter)

/-- Go `w.Write(data)`: sends status 200 first when no status was sent, then
hands the bytes to the connection. -/
def ResponseWriter.write (w : ResponseWriter) (data : String) : WriteResult :=
  let w1 := w.writeHeader 200
  match w1.conn with
  | .succeeds => .ok { w1 with body := w1.body ++ data }
  | .fails => .err w1
  | .panics => .panic w1

/-- One call of `log.Printf`: the format and its operands. -/
abbrev LogLine := String × List String

/-- What a handler leaves behind. -/
structure Outcome where
  metrics : Metrics
  w : ResponseWriter
  log : List LogLine
  /-- The handler was aborted by a panic instead of returning. -/
  panicked : Bool

/-! ## Handlers -/

/-- The body of `appHandler` after the `defer` statement (main.go 53-137).  The
page format lies inside the modelled part of `Sprintf` (`Sprintf_pageTemplate`),
so the fallback of `getD` is never taken. -/
def appHandlerBody (lib : Lib) (env : Env) (clk : Readings) (m : Metrics)
    (w : ResponseWriter) (r : Request) : Outcome :=
  let log : List LogLine :=
    [("%s %s %s", [lib.format "2006-01-02 15:04:05" clk.logNow, r.method, r.path])]
  let w := w.setHeader "Content-Type" "text/html; charset=utf-8"
  let w := w.setHeader "X-Server" "Golang-HA-Server"
  let w := w.setHeader "X-Version" "1.0.0"
  let response :=
    (Sprintf pageTemplate
      [lib.format "2006-01-02 15:04:05" clk.renderNow,
       getEnv env "ENVIRONMENT" "production",
       r.method,
       r.path,
       r.userAgent,
       r.remoteAddr,
       getEnv env "HOSTNAME" "unknown",
       lib.durationString clk.renderElapsed]).getD ""
  let w := w.writeHeader 200
  match w.write response with
  | .panic w => { metrics := m, w := w, log := log, panicked := true }
  | .ok w | .err w =>
    let duration := seconds clk.recordElapsed
    let m := m.countRequest [r.method, r.path, "200"]
    let m := m.observeDuration [r.method, r.path] duration
    { metrics := m, w := w, log := log, panicked := false }

/-- The stretches of `appHandler` between which another invocation can run. -/
inductive Step where
  /-- Source `httpRequestsInFlight.Inc()` (main.go 50), after which the `Dec` is
  deferred (main.go 51). -/
  | entry
  /-- The rest of the function body (main.go 53-137). -/
  | body
  /-- The deferred `httpRequestsInFlight.Dec()`, run when the body is left, by
  return or by panic. -/
  | deferred
  deriving DecidableEq, Repr

/-- The stretches of `appHandler` in the order in which an invocation runs them. -/
def appHandlerSteps : List Step := [.entry, .body, .deferred]

/-- One stretch of `appHandler`, run on the state of its invocation; the
registry in that state is the one shared by all invocations. -/
def appHandlerStep (lib : Lib) (env : Env) (clk : Readings) (r : Request) :
    Step → Outcome → Outcome
  | .entry, out => { out with metrics := out.metrics.inFlightInc }
  | .body, out => appHandlerBody lib env clk out.metrics out.w r
  | .deferred, out => { out with metrics := out.metrics.inFlightDec }

/-- Source `appHandler` (main.go 46-138): the gauge goes up at entry, the body
runs, and the deferred `Dec` runs when the body is left, by return or by
panic. -/
def appHandler (lib : Lib) (env : Env) (clk : Readings) (m : Metrics)
    (w : ResponseWriter) (r : Request) : Outcome :=
  appHandlerSteps.foldl (fun out s => appHandlerStep lib env clk r s out)
    { metrics := m, w := w, log := [], panicked := false }

/-- The JSON text written by `healthHandler`. -/
def healthBody (lib : Lib) (now : Time) : String :=
  "\x7b\"status\":\"healthy\",\"timestamp\":\"" ++ lib.format "2006-01-02T15:04:05Z07:00" now
    ++ "\"\x7d"

/-- Source `healthHandler` (main.go 140-144). -/
def healthHandler (lib : Lib) (now : Time) (m : Metrics) (w : ResponseWriter)
    (_r : Request) : Outcome :=
  let w := w.setHeader "Content-Type" "application/json"
  let w := w.writeHeader 200
  match w.write (healthBody lib now) with
  | .panic w => { metrics := m, w := w, log := [], panicked := true }
  | .ok w | .err w => { metrics := m, w := w, log := [], panicked := false }

/-- Source `metricsHandler` (main.go 146-148): `promhttp.Handler()` writes the
text exposition of the registry; it updates none of the three instruments. -/
def metricsHandler (exposition : Metrics → String) (m : Metrics) (w : ResponseWriter)
    (_r : Request) : Outcome :=
  match w.write (exposition m) with
  | .panic w => { metrics := m, w := w, log := [], panicked := true }
  | .ok w | .err w => { metrics := m, w := w, log := [], panicked := false }

/-! ## The route table (`http.ServeMux`) -/

/-- The handlers a request can be dispatched to. -/
inductive Handler where
  /-- Source `appHandler`. -/
  | app
  /-- Source `healthHandler`. -/
  | health
  /-- Source `metricsHandler`. -/
  | metrics
  /-- Go `http.NotFoundHandler()`. -/
  | notFound
  /-- Go `http.RedirectHandler(url, code)`, `target` being the path of `url`. -/
  | redirect (target : String)
  /-- The answer of `ServeMux.ServeHTTP` to a request line that names `*`. -/
  | badRequest
  /-- The handler the server runs for `OPTIONS *` instead of the mux. -/
  | globalOptions
  deriving DecidableEq, Repr

/-- Go `path.Clean`, the step `..`: the last byte is dropped, then bytes are
dropped until the one just dropped is a slash or the buffer is down to
`dotdot` bytes.  The buffer is kept last byte first. -/
def backtrack (dotdot : Nat) : List Char → List Char
  | [] => []
  | c :: rest => if dotdot < rest.length ∧ c ≠ '/' then backtrack dotdot rest else rest

/-- Where the loop of `path.Clean` stands in the element it reads. -/
inductive Scan where
  /-- At the first byte of an element. -/
  | start
  /-- Inside an element that is copied to the output. -/
  | copy
  /-- On the second dot of a `..` element. -/
  | dot2
  deriving DecidableEq, Repr

/-- Go `path.Clean`, the loop over the path.  `rest` is the part of the path
still to read, `buf` the output buffer (last byte first) and `dotdot` the
length below which `..` may not cut the buffer. -/
def cleanLoop (rooted : Bool) : Scan → List Char → List Char → Nat → List Char
  | _, [], buf, _ => buf
  | .copy, c :: rest, buf, dotdot =>
    if c = '/' then cleanLoop rooted .start rest buf dotdot
    else cleanLoop rooted .copy rest (c :: buf) dotdot
  | .dot2, _ :: rest, buf, dotdot => cleanLoop rooted .start rest buf dotdot
  | .start, c :: rest, buf, dotdot =>
    if c = '/' then
      -- empty path element
      cleanLoop rooted .start rest buf dotdot
    else if c = '.' ∧ (rest = [] ∨ rest.head? = some '/') then
      -- . element
      cleanLoop rooted .start rest buf dotdot
    else if c = '.' ∧ rest.head? = some '.' ∧
        (rest.tail = [] ∨ rest.tail.head? = some '/') then
      -- .. element: remove to last /
      if dotdot < buf.length then
        cleanLoop rooted .dot2 rest (backtrack dotdot buf) dotdot
      else if ¬ rooted then
        let buf := if 0 < buf.length then '/' :: buf else buf
        let buf := '.' :: '.' :: buf
        cleanLoop rooted .dot2 rest buf buf.length
      else cleanLoop rooted .dot2 rest buf dotdot
    else
      -- real path element: add slash if needed, then copy the element
      let buf :=
        if (rooted ∧ buf.length ≠ 1) ∨ (¬ rooted ∧ buf.length ≠ 0) then '/' :: buf else buf
      cleanLoop rooted .copy rest (c :: buf) dotdot

/-- Go `path.Clean`. -/
def pathClean (path : List Char) : List Char :=
  if path = [] then ['.']
  else
    let rooted : Bool := path.head? = some '/'
    let out :=
      if rooted then cleanLoop rooted .start path.tail ['/'] 1
      else cleanLoop rooted .start path [] 0
    if out.length = 0 then ['.'] else out.reverse

/-- Go `net/http` `cleanPath`: the canonical form of a request path.  The test
on the lengths only tells whether `p` is `np` with a slash added, so it is made
on characters. -/
def cleanPath (p : String) : String :=
  if p = "" then "/"
  else
    let p : List Char := if p.data.head? ≠ some '/' then '/' :: p.data else p.data
    let np := pathClean p
    -- path.Clean removes the trailing slash except for root; it is put back
    if p.getLast? = some '/' ∧ np ≠ ['/'] then
      if p.length = np.length + 1 ∧ np.isPrefixOf p then String.mk p
      else String.mk (np ++ ['/'])
    else String.mk np

/-- One registration: the pattern and its handler. -/
abbrev MuxEntry := String × Handler

/-- Go `http.ServeMux`: the pattern map `m`, the patterns ending in a slash
from longest to shortest `es`, and whether a pattern names a host. -/
structure ServeMux where
  m : List MuxEntry
  es : List MuxEntry
  hosts : Bool

/-- The mux before any registration. -/
def ServeMux.empty : ServeMux := { m := [], es := [], hosts := false }

/-- Go `appendSorted`: `e` goes before the first entry with a shorter pattern. -/
def appendSorted : List MuxEntry → MuxEntry → List MuxEntry
  | [], e => [e]
  | x :: xs, e =>
    if x.1.length < e.1.length then e :: x :: xs else x :: appendSorted xs e

/-- Go `ServeMux.Handle` for a new, non-empty pattern. -/
def ServeMux.handle (mux : ServeMux) (pattern : String) (h : Handler) : ServeMux :=
  { m := mux.m ++ [(pattern, h)]
    es := if pattern.data.getLast? = some '/' then appendSorted mux.es (pattern, h) else mux.es
    hosts := mux.hosts || (pattern.data.head? != some '/') }

/-- Go `strings.HasPrefix`. -/
def startsWith (s pre : String) : Bool := pre.data.isPrefixOf s.data

/-- The entry registered under exactly this pattern. -/
def ServeMux.exact (mux : ServeMux) (path : String) : Option MuxEntry :=
  mux.m.find? (fun e => e.1 = path)

/-- Go `ServeMux.match`: an exact match first, then the longest pattern ending
in a slash that is a leading part of the path. -/
def ServeMux.matchPath (mux : ServeMux) (path : String) : Option Handler :=
  match mux.exact path with
  | some e => some e.2
  | none => (mux.es.find? (fun e => startsWith path e.1)).map Prod.snd

/-- Go `ServeMux.handler`. -/
def ServeMux.handler (mux : ServeMux) (host path : String) : Handler :=
  let h := if mux.hosts then mux.matchPath (host ++ path) else none
  let h := if h = none then mux.matchPath path else h
  h.getD .notFound

/-- Go `ServeMux.shouldRedirectRLocked`: the path itself is not registered
and the path with a slash added is. -/
def ServeMux.shouldRedirect (mux : ServeMux) (host path : String) : Bool :=
  let p := [path, host ++ path]
  if p.any (fun c => (mux.exact c).isSome) then false
  else if path.data.length = 0 then false
  else if p.any (fun c => (mux.exact (c ++ "/")).isSome) then
    path.data.getLast? != some '/'
  else false

/-- Go `ServeMux.Handler`: a CONNECT request is matched as it is; any other
request is matched on its cleaned path and is redirected to the cleaned path
when that differs from the path it came with.  The mux cleans the path as it
was sent, which for the requests of the model is `r.path`. -/
def ServeMux.Handler (mux : ServeMux) (r : Request) : Handler :=
  if r.method = "CONNECT" then
    if mux.shouldRedirect r.host r.path then .redirect (r.path ++ "/")
    else mux.handler r.host r.path
  else
    let path := cleanPath r.path
    if mux.shouldRedirect r.host path then .redirect (path ++ "/")
    else if path ≠ r.path then .redirect path
    else mux.handler r.host r.path

/-- Go `http.NotFoundHandler()`. -/
def notFoundHandler (m : Metrics) (w : ResponseWriter) (_r : Request) : Outcome :=
  let w := w.setHeader "Content-Type" "text/plain; charset=utf-8"
  let w := w.setHeader "X-Content-Type-Options" "nosniff"
  let w := w.writeHeader 404
  match w.write "404 page not found\n" with
  | .panic w => { metrics := m, w := w, log := [], panicked := true }
  | .ok w | .err w => { metrics := m, w := w, log := [], panicked := false }

/-- Go `http.Redirect`, called by `http.RedirectHandler`: the `Location` header,
for GET and HEAD a content type unless one is set, the status line, and for GET
the HTML note. -/
def redirectHandler (lib : Lib) (target : String) (m : Metrics) (w : ResponseWriter)
    (r : Request) : Outcome :=
  let hadCT := (headerGet w.header "Content-Type").isSome
  let w := w.setHeader "Location" (lib.redirectLocation target)
  let w :=
    if ¬ hadCT ∧ (r.method = "GET" ∨ r.method = "HEAD") then
      w.setHeader "Content-Type" "text/html; charset=utf-8"
    else w
  let w := w.writeHeader lib.redirectStatus
  if ¬ hadCT ∧ r.method = "GET" then
    match w.write (lib.redirectNote target) with
    | .panic w => { metrics := m, w := w, log := [], panicked := true }
    | .ok w | .err w => { metrics := m, w := w, log := [], panicked := false }
  else { metrics := m, w := w, log := [], panicked := false }

/-- Go `ServeMux.ServeHTTP` on a request line that names `*`: status 400, and
the connection is closed when the protocol is HTTP/1.1 or later. -/
def badRequestHandler (m : Metrics) (w : ResponseWriter) (r : Request) : Outcome :=
  let w := if r.protoAtLeast11 then w.setHeader "Connection" "close" else w
  let w := w.writeHeader 400
  { metrics := m, w := w, log := [], panicked := false }

/-- Go `globalOptionsHandler`: an empty answer, which the server sends with
status 200 when the handler returns. -/
def globalOptionsHandler (m : Metrics) (w : ResponseWriter) (_r : Request) : Outcome :=
  let w := w.setHeader "Content-Length" "0"
  let w := w.writeHeader 200
  { metrics := m, w := w, log := [], panicked := false }

/-! ## Startup and the serving loop -/

/-- What `main` has set up when it starts to listen. -/
structure Process where
  log : List LogLine
  mux : ServeMux
  /-- The address handed to `http.ListenAndServe`. -/
  addr : String

/-- Source `main` (main.go 157-174), up to the call of `ListenAndServe`. -/
def main (env : Env) : Process :=
  let port := getEnv env "PORT" "8080"
  let log1 : List LogLine :=
    [("🚀 Starting Golang HA Server on port %s", [port]),
     ("📊 Environment: %s", [getEnv env "ENVIRONMENT" "production"]),
     ("🏠 Hostname: %s", [getEnv env "HOSTNAME" "unknown"])]
  let mux := ServeMux.empty.handle "/" .app
  let mux := mux.handle "/health" .health
  let mux := mux.handle "/metrics" .metrics
  let log2 : List LogLine :=
    [("✅ Server started, serving on port %s", [port]),
     ("📈 Metrics available at http://localhost:%s/metrics", [port]),
     ("❤️  Health check available at http://localhost:%s/health", [port])]
  { log := log1 ++ log2, mux := mux, addr := ":" ++ port }

/-- One request reaching the server, with what the outside world does while
it is handled. -/
structure Arrival where
  req : Request
  /-- The process environment while the request is handled. -/
  env : Env
  /-- Clock readings of `appHandler`. -/
  clk : Readings
  /-- Reading of `time.Now()` in `healthHandler` (main.go 143). -/
  now : Time
  conn : WriteBehaviour

/-- The handler that answers a request: the server answers `OPTIONS *` itself,
`ServeMux.ServeHTTP` answers any other request for `*` with status 400, and
every other request goes to the handler `ServeMux.Handler` selects. -/
def dispatch (mux : ServeMux) (r : Request) : Handler :=
  if r.path = "*" then
    if r.method = "OPTIONS" then .globalOptions else .badRequest
  else mux.Handler r

/-- The server handling one request: the handler that answers it runs on a
fresh response writer. -/
def serveHTTP (lib : Lib) (exposition : Metrics → String) (mux : ServeMux) (m : Metrics)
    (a : Arrival) : Outcome :=
  let w := ResponseWriter.fresh a.conn
  match dispatch mux a.req with
  | .app => appHandler lib a.env a.clk m w a.req
  | .health => healthHandler lib a.now m w a.req
  | .metrics => metricsHandler exposition m w a.req
  | .notFound => notFoundHandler m w a.req
  | .redirect target => redirectHandler lib target m w a.req
  | .badRequest => badRequestHandler m w a.req
  | .globalOptions => globalOptionsHandler m w a.req

/-- The registry after the requests of `as` were served one after the other
(a handler that panics is recovered by the server, which keeps running). -/
def serveAll (lib : Lib) (exposition : Metrics → String) (mux : ServeMux) :
    Metrics → List Arrival → Metrics
  | m, [] => m
  | m, a :: as => serveAll lib exposition mux (serveHTTP lib exposition mux m a).metrics as

/-! ## Invocations of `appHandler` running concurrently -/

/-- An event of an interleaving: invocation `id` of `appHandler` has run its
entry, or it has left the handler and its deferred `Dec` has run. -/
inductive Event where
  | enter (id : Nat)
  | exit (id : Nat)
  deriving DecidableEq, Repr

/-- The event that a stretch of invocation `id` is, if it is one. -/
def eventOf (id : Nat) : Step → Option Event
  | .entry => some (.enter id)
  | .body => none
  | .deferred => some (.exit id)

/-- What a concurrent invocation of `appHandler` is called with. -/
structure Invocation where
  lib : Lib
  env : Env
  clk : Readings
  w : ResponseWriter
  r : Request

/-- Invocations of `appHandler` running on one registry: the registry, the
stretches each invocation has still to run, the state each has reached, and the
entries and exits so far, in order. -/
structure Pool where
  metrics : Metrics
  todo : Nat → List Step
  state : Nat → Outcome
  trace : List Event

/-- The pool before any invocation has run: each has all of `appHandler` to run. -/
def Pool.start (m : Metrics) (inv : Nat → Invocation) : Pool :=
  { metrics := m
    todo := fun _ => appHandlerSteps
    state := fun i => { metrics := m, w := (inv i).w, log := [], panicked := false }
    trace := [] }

/-- Invocation `i` runs its next stretch of `appHandler` on the shared registry;
an invocation that has returned runs nothing. -/
def Pool.step (inv : Nat → Invocation) (p : Pool) (i : Nat) : Pool :=
  match p.todo i with
  | [] => p
  | s :: rest =>
    let out := appHandlerStep (inv i).lib (inv i).env (inv i).clk (inv i).r s
      { p.state i with metrics := p.metrics }
    { metrics := out.metrics
      todo := Function.update p.todo i rest
      state := Function.update p.state i out
      trace := p.trace ++ (eventOf i s).toList }

/-- The pool after the invocations have run in the order of the schedule, one
stretch each time an invocation is named. -/
def runSchedule (inv : Nat → Invocation) (p : Pool) (sched : List Nat) : Pool :=
  sched.foldl (Pool.step inv) p

/-- A trace continues validly from the invocations `started` and `finished`
so far: an invocation enters once, and exits at most once and only after it
entered. -/
def validFrom (started finished : List Nat) : List Event → Bool
  | [] => true
  | .enter i :: t => !started.contains i && validFrom (i :: started) finished t
  | .exit i :: t =>
    started.contains i && !finished.contains i && validFrom started (i :: finished) t

/-- A well-formed interleaving of entries and exits. -/
def wellFormed (tr : List Event) : Bool := validFrom [] [] tr

/-- The invocations that entered in the trace. -/
def entered (tr : List Event) : List Nat :=
  tr.filterMap (fun e => match e with | .enter i => some i | .exit _ => none)

/-- The invocations that exited in the trace. -/
def exited (tr : List Event) : List Nat :=
  tr.filterMap (fun e => match e with | .enter _ => none | .exit i => some i)

/-- The number of invocations that have entered but not yet exited. -/
def inFlightCount (tr : List Event) : Nat :=
  ((entered tr).toFinset \ (exited tr).toFinset).card

/-- What holds of a pool that runs invocations of `appHandler` from a registry
whose gauge was `g`: each invocation is before its entry, between entry and exit,
or past its exit, as the trace says; the trace is well formed; and the gauge is
`g` plus the number of invocations between entry and exit. -/
structure Pool.Good (g : Int) (p : Pool) : Prop where
  phase : ∀ i : Nat,
    (p.todo i = [.entry, .body, .deferred] ∧ i ∉ entered p.trace ∧ i ∉ exited p.trace)
      ∨ ((p.todo i = [.body, .deferred] ∨ p.todo i = [.deferred])
          ∧ i ∈ entered p.trace ∧ i ∉ exited p.trace)
      ∨ (p.todo i = [] ∧ i ∈ entered p.trace ∧ i ∈ exited p.trace)
  valid : wellFormed p.trace = true
  gauge : p.metrics.httpRequestsInFlight = g + (inFlightCount p.trace : Int)

/-! ## The page format between its directives -/

/-- An entry of `pageEntries` that is a directive. -/
def isDirective (e : String) : Bool := e.data.head? = some '%'

/-- The stretches of literal entries between the directive entries. -/
def literalRuns : List String → List (List String)
  | [] => [[]]
  | e :: es =>
    if isDirective e then [] :: literalRuns es
    else
      match literalRuns es with
      | r :: rs => (e :: r) :: rs
      | [] => [[e]]

/-- The entries of the page format between directive `k` and directive `k + 1`
(counting from 1; run 0 is the text before the first directive). -/
def pageRun (k : Nat) : List String := (literalRuns pageEntries).getD k []

/-- The text of the page format between directive `k` and directive `k + 1`. -/
def pageText (k : Nat) : List Char := ((pageRun k).map String.data).flatten

/-- The page that `fmt.Sprintf` prints from the page format and the eight
operands of `appHandler`, in the order of the call (main.go 121-128). -/
def pageOutput (timestamp environment method path userAgent remoteAddr hostname
    uptime : String) : String :=
  String.mk
    (pageText 0 ++ ("%!,(string=".data ++ timestamp.data ++ [')'] ++ (pageText 1 ++
      ("%!)(string=".data ++ environment.data ++ [')'] ++ (pageText 2 ++ (method.data ++
      (pageText 3 ++ (path.data ++ (pageText 4 ++ (userAgent.data ++ (pageText 5 ++
      (remoteAddr.data ++ (pageText 6 ++ (hostname.data ++ (pageText 7 ++ (uptime.data ++
      (pageText 8 ++ ("%!s(MISSING)".data ++ (pageText 9 ++ ("%!s(MISSING)".data ++
      pageText 10))))))))))))))))))))

/-- The text `sub` occurs in the text `s`. -/
def occursIn (sub s : String) : Prop := sub.data <:+: s.data

instance (sub s : String) : Decidable (occursIn sub s) := by
  unfold occursIn; infer_instance

/-! ## Sample inputs -/

/-- A library whose clock shows the reference time of the layout and whose mux
redirects with status 301, as Go 1.21 does for a target without special
characters. -/
def refLib : Lib :=
  { format := fun layout _ => layout
    durationString := fun _ => "0s"
    redirectStatus := 301
    redirectLocation := fun target => target
    redirectNote := fun target => "<a href=\"" ++ target ++ "\">Moved Permanently</a>.\n\n" }

/-- An exposition that prints nothing. -/
def noExposition : Metrics → String := fun _ => ""

/-- The environment with no variable set. -/
def emptyEnv : Env := fun _ => none

/-- The environment with `key` set to `value` and nothing else. -/
def singleEnv (key value : String) : Env := fun k => if k = key then some value else none

/-- Clock readings of a handler that takes no time. -/
def zeroReadings : Readings :=
  { logNow := 0, renderNow := 0, renderElapsed := 0, recordElapsed := 0 }

/-- A request with the given method and path from a fixed client. -/
def sampleRequest (method path : String) : Request :=
  { method := method, host := "localhost", path := path, userAgent := "curl/8.0",
    remoteAddr := "10.0.0.7:5353", protoAtLeast11 := true }

/-- The arrival of `sampleRequest method path` on a connection that accepts the
body, while the process environment is `env`. -/
def arrivalIn (env : Env) (method path : String) : Arrival :=
  { req := sampleRequest method path, env := env, clk := zeroReadings, now := 0,
    conn := .succeeds }

/-- The arrival of `sampleRequest method path` with no variable set. -/
def sampleArrival (method path : String) : Arrival := arrivalIn emptyEnv method path

/-- The number of requests of the sequence with this method and this path. -/
def requestsTo (method path : String) (as : List Arrival) : Nat :=
  (as.filter (fun a => a.req.method = method ∧ a.req.path = path)).length

/-- The number of requests of the sequence with this method and this path that
the mux dispatched to `appHandler` and whose response write did not panic. -/
def requestsRecorded (mux : ServeMux) (method path : String) (as : List Arrival) : Nat :=
  (as.filter (fun a => mux.Handler a.req = .app ∧ a.conn ≠ .panics
    ∧ a.req.method = method ∧ a.req.path = path)).length

/-- The environment in which every variable is set to the empty string. -/
def blankEnv : Env := fun _ => some ""

/-- Invocations that all serve `sampleRequest "GET" "/"` on a connection that
accepts the body. -/
def sampleInvocations : Nat → Invocation := fun _ =>
  { lib := refLib, env := emptyEnv, clk := zeroReadings, w := ResponseWriter.fresh .succeeds,
    r := sampleRequest "GET" "/" }

/-! # Theorems -/

/-! ## Formatting the page -/

theorem join_data_aux (l : List String) (acc : String) :
    (l.foldl (fun r s => r ++ s) acc).data = acc.data ++ (l.map String.data).flatten := by
  induction l generalizing acc with
  | nil => simp
  | cons s l ih => simp [ih, String.data_append]

theorem join_data (l : List String) :
    (String.join l).data = (l.map String.data).flatten := by
  simp [String.join, join_data_aux]

theorem pageEntries_runs :
    pageEntries =
      pageRun 0 ++ "%," :: (pageRun 1 ++ "%)" :: (pageRun 2 ++ "%s" :: (pageRun 3 ++ "%s" ::
      (pageRun 4 ++ "%s" :: (pageRun 5 ++ "%s" :: (pageRun 6 ++ "%s" :: (pageRun 7 ++ "%s" ::
      (pageRun 8 ++ "%s" :: (pageRun 9 ++ "%s" :: pageRun 10))))))))) := by
  decide

set_option maxRecDepth 4096 in
theorem pageRun_literal : ∀ k ∈ List.range 11, ∀ e ∈ pageRun k, '%' ∉ e.data := by
  decide

theorem pageText_literal (k : Nat) (hk : k < 11) : '%' ∉ pageText k := by
  intro h
  simp only [pageText, List.mem_flatten, List.mem_map] at h
  obtain ⟨l, ⟨e, he, rfl⟩, hl⟩ := h
  exact pageRun_literal k (List.mem_range.2 hk) e he hl

/-- The page format as literal text and directives. -/
theorem pageTemplate_data :
    pageTemplate.data =
      pageText 0 ++ '%' :: ',' :: (pageText 1 ++ '%' :: ')' :: (pageText 2 ++ '%' :: 's' ::
      (pageText 3 ++ '%' :: 's' :: (pageText 4 ++ '%' :: 's' :: (pageText 5 ++ '%' :: 's' ::
      (pageText 6 ++ '%' :: 's' :: (pageText 7 ++ '%' :: 's' :: (pageText 8 ++ '%' :: 's' ::
      (pageText 9 ++ '%' :: 's' :: pageText 10))))))))) := by
  have h : (pageEntries.map String.data).flatten =
      ((pageRun 0 ++ "%," :: (pageRun 1 ++ "%)" :: (pageRun 2 ++ "%s" :: (pageRun 3 ++ "%s" ::
      (pageRun 4 ++ "%s" :: (pageRun 5 ++ "%s" :: (pageRun 6 ++ "%s" :: (pageRun 7 ++ "%s" ::
      (pageRun 8 ++ "%s" :: (pageRun 9 ++ "%s" :: pageRun 10))))))))) ).map
        String.data).flatten := congrArg (fun l => (l.map String.data).flatten) pageEntries_runs
  rw [pageTemplate, join_data, h]
  simp only [List.map_append, List.map_cons, List.flatten_append, List.flatten_cons, pageText,
    List.cons_append, List.nil_append]

/-- Literal text is copied to the output. -/
theorem doPrintf_literal (lit rest : List Char) (args : List (List Char)) (h : '%' ∉ lit) :
    doPrintf (lit ++ rest) args = (doPrintf rest args).map (lit ++ ·) := by
  induction lit with
  | nil => simp
  | cons c lit ih =>
    have hc : c ≠ '%' := fun e => h (by simp [e])
    have hl : '%' ∉ lit := fun e => h (by simp [e])
    rw [List.cons_append]
    conv_lhs => rw [doPrintf.eq_def]
    simp [hc, ih hl, Option.map_map, Function.comp_def]

/-- The directive `%s` with an operand left prints the operand. -/
theorem doPrintf_s (rest a : List Char) (args : List (List Char)) :
    doPrintf ('%' :: 's' :: rest) (a :: args) = (doPrintf rest args).map (a ++ ·) := by
  simp [doPrintf, isModifier, printArg]
  cases doPrintf rest args <;> rfl

/-- The directive `%s` without an operand left prints `%!s(MISSING)`. -/
theorem doPrintf_s_missing (rest : List Char) :
    doPrintf ('%' :: 's' :: rest) [] = (doPrintf rest []).map ("%!s(MISSING)".data ++ ·) := by
  simp [doPrintf, isModifier]

/-- The directive `%,` takes an operand and prints it as a bad verb. -/
theorem doPrintf_comma (rest a : List Char) (args : List (List Char)) :
    doPrintf ('%' :: ',' :: rest) (a :: args)
      = (doPrintf rest args).map (("%!,(string=".data ++ a ++ [')']) ++ ·) := by
  simp [doPrintf, isModifier, printArg]
  cases doPrintf rest args <;> rfl

/-- The directive `%)` takes an operand and prints it as a bad verb. -/
theorem doPrintf_paren (rest a : List Char) (args : List (List Char)) :
    doPrintf ('%' :: ')' :: rest) (a :: args)
      = (doPrintf rest args).map (("%!)(string=".data ++ a ++ [')']) ++ ·) := by
  simp [doPrintf, isModifier, printArg]
  cases doPrintf rest args <;> rfl

/-- The page as `fmt.Sprintf` prints it from eight string operands: the two
percent signs of the style sheet take the first two operands, each `%s` takes
the operand two places further on, and the last two `%s` find none. -/
theorem doPrintf_pageTemplate (a0 a1 a2 a3 a4 a5 a6 a7 : List Char) :
    doPrintf pageTemplate.data [a0, a1, a2, a3, a4, a5, a6, a7] =
      some (pageText 0 ++ ("%!,(string=".data ++ a0 ++ [')'] ++ (pageText 1 ++
        ("%!)(string=".data ++ a1 ++ [')'] ++ (pageText 2 ++ (a2 ++ (pageText 3 ++ (a3 ++
        (pageText 4 ++ (a4 ++ (pageText 5 ++ (a5 ++ (pageText 6 ++ (a6 ++ (pageText 7 ++ (a7 ++
        (pageText 8 ++ ("%!s(MISSING)".data ++ (pageText 9 ++ ("%!s(MISSING)".data ++
        pageText 10)))))))))))))))))))) := by
  have h10 : doPrintf (pageText 10) [] = some (pageText 10) := by
    have := doPrintf_literal (pageText 10) [] [] (pageText_literal 10 (by decide))
    simpa [doPrintf, extraArgs] using this
  rw [pageTemplate_data]
  rw [doPrintf_literal _ _ _ (pageText_literal 0 (by decide)), doPrintf_comma,
    doPrintf_literal _ _ _ (pageText_literal 1 (by decide)), doPrintf_paren,
    doPrintf_literal _ _ _ (pageText_literal 2 (by decide)), doPrintf_s,
    doPrintf_literal _ _ _ (pageText_literal 3 (by decide)), doPrintf_s,
    doPrintf_literal _ _ _ (pageText_literal 4 (by decide)), doPrintf_s,
    doPrintf_literal _ _ _ (pageText_literal 5 (by decide)), doPrintf_s,
    doPrintf_literal _ _ _ (pageText_literal 6 (by decide)), doPrintf_s,
    doPrintf_literal _ _ _ (pageText_literal 7 (by decide)), doPrintf_s,
    doPrintf_literal _ _ _ (pageText_literal 8 (by decide)), doPrintf_s_missing,
    doPrintf_literal _ _ _ (pageText_literal 9 (by decide)), doPrintf_s_missing, h10]
  simp only [Option.map_some', List.append_assoc]

/-- The page format with eight string operands is inside the modelled part of
`fmt.Sprintf`, and prints `pageOutput`. -/
theorem Sprintf_pageTemplate (a0 a1 a2 a3 a4 a5 a6 a7 : String) :
    Sprintf pageTemplate [a0, a1, a2, a3, a4, a5, a6, a7]
      = some (pageOutput a0 a1 a2 a3 a4 a5 a6 a7) := by
  simp only [Sprintf, List.map_cons, List.map_nil, doPrintf_pageTemplate, Option.map_some',
    pageOutput]

theorem pageText_ends (k : Nat) (lab : List Char)
    (h : ∃ e ∈ (pageRun k).getLast?, lab <:+ e.data) : lab <:+ pageText k := by
  obtain ⟨e, h1, h2⟩ := h
  have h : (pageRun k).dropLast ++ [e] = pageRun k := List.dropLast_append_getLast? e h1
  unfold pageText
  rw [← h]
  simp only [List.map_append, List.flatten_append, List.map_cons, List.map_nil,
    List.flatten_cons, List.flatten_nil, List.append_nil]
  exact h2.trans (List.suffix_append _ _)

theorem pageText_begins (k : Nat) (e : String) (lab : List Char)
    (h1 : (pageRun k).head? = some e) (h2 : lab <+: e.data) : lab <+: pageText k := by
  unfold pageText
  cases hr : pageRun k with
  | nil => simp [hr] at h1
  | cons x xs =>
    simp [hr] at h1
    subst h1
    simp only [List.map_cons, List.flatten_cons]
    exact h2.trans (List.prefix_append _ _)

theorem occurs_skip {s t : List Char} (h : List Char) (hst : s <:+: t) : s <:+: h ++ t := by
  obtain ⟨a, b, rfl⟩ := hst
  exact ⟨h ++ a, b, by simp⟩

/-- A value printed between a text ending in `lab` and a text beginning with
`nl` occurs in the output with `lab` before it and `nl` after it. -/
theorem occurs_slot {lab nl t t2 : List Char} (a rest : List Char) (h1 : lab <:+ t)
    (h2 : nl <+: t2) : lab ++ (a ++ nl) <:+: t ++ (a ++ (t2 ++ rest)) := by
  obtain ⟨p, rfl⟩ := h1
  obtain ⟨q, rfl⟩ := h2
  exact ⟨p, q ++ rest, by simp⟩

theorem label2 : "<strong>Timestamp:</strong> ".data <:+ pageText 2 :=
  pageText_ends 2 _ (by decide)

theorem label3 : "<strong>Environment:</strong> ".data <:+ pageText 3 :=
  pageText_ends 3 _ (by decide)

theorem label4 : "<strong>Method:</strong> ".data <:+ pageText 4 :=
  pageText_ends 4 _ (by decide)

theorem label5 : "<strong>Path:</strong> ".data <:+ pageText 5 :=
  pageText_ends 5 _ (by decide)

theorem label6 : "<strong>User Agent:</strong> ".data <:+ pageText 6 :=
  pageText_ends 6 _ (by decide)

theorem label7 : "<strong>Remote Address:</strong> ".data <:+ pageText 7 :=
  pageText_ends 7 _ (by decide)

theorem label8 : "<strong>Hostname:</strong> ".data <:+ pageText 8 :=
  pageText_ends 8 _ (by decide)

theorem label9 : "<strong>Uptime:</strong> ".data <:+ pageText 9 :=
  pageText_ends 9 _ (by decide)

theorem label0 : "0".data <:+ pageText 0 := pageText_ends 0 _ (by decide)

theorem label1 : "100".data <:+ pageText 1 := pageText_ends 1 _ (by decide)

theorem occurs_slot_end {lab nl t t2 : List Char} (a : List Char) (h1 : lab <:+ t)
    (h2 : nl <+: t2) : lab ++ (a ++ nl) <:+: t ++ (a ++ t2) := by
  obtain ⟨p, rfl⟩ := h1
  obtain ⟨q, rfl⟩ := h2
  exact ⟨p, q, by simp⟩

theorem newline_after (k : Nat) (hk : k ∈ [3, 4, 5, 6, 7, 8, 9, 10]) :
    "\n".data <+: pageText k := by
  simp only [List.mem_cons, List.mem_singleton, List.not_mem_nil, or_false] at hk
  rcases hk with rfl | rfl | rfl | rfl | rfl | rfl | rfl | rfl <;>
    exact pageText_begins _ "\n" _ (by decide) (by decide)

/-! ## The handlers -/

/-- The run of the three stretches of `appHandler`, written out. -/
theorem appHandler_eq (lib : Lib) (env : Env) (clk : Readings) (m : Metrics)
    (w : ResponseWriter) (r : Request) :
    appHandler lib env clk m w r
      = { appHandlerBody lib env clk m.inFlightInc w r with
          metrics := (appHandlerBody lib env clk m.inFlightInc w r).metrics.inFlightDec } :=
  rfl

theorem appHandlerBody_inFlight (lib : Lib) (env : Env) (clk : Readings) (m : Metrics)
    (w : ResponseWriter) (r : Request) :
    (appHandlerBody lib env clk m w r).metrics.httpRequestsInFlight
      = m.httpRequestsInFlight := by
  unfold appHandlerBody ResponseWriter.write
  cases hc : w.conn <;>
    simp [hc, ResponseWriter.writeHeader, ResponseWriter.setHeader, Metrics.countRequest,
      Metrics.observeDuration] <;>
    cases w.status <;> simp [hc, Metrics.countRequest, Metrics.observeDuration]

theorem appHandlerBody_panics (lib : Lib) (env : Env) (clk : Readings) (m : Metrics)
    (w : ResponseWriter) (r : Request) :
    (appHandlerBody lib env clk m w r).panicked = true ↔ w.conn = .panics := by
  unfold appHandlerBody ResponseWriter.write
  cases hc : w.conn <;>
    simp [hc, ResponseWriter.writeHeader, ResponseWriter.setHeader] <;>
    cases w.status <;> simp [hc]

theorem appHandler_inFlight_panics (lib : Lib) (env : Env) (clk : Readings) (m : Metrics)
    (w : ResponseWriter) (r : Request) :
    (appHandler lib env clk m w r).panicked = true ↔ w.conn = .panics := by
  simpa [appHandler_eq] using appHandlerBody_panics lib env clk m.inFlightInc w r

/-- C1. After `appHandler` the in-flight gauge is back at the value `g` it had
before the request, on every exit path (the response write succeeds, returns an
error, or panics): the body runs with the gauge at `g + 1`, the deferred
decrement runs once when the body is left, and the handler is left by a panic
exactly when the write panics. -/
theorem appHandler_inFlight_restored (lib : Lib) (env : Env) (clk : Readings) (m : Metrics)
    (w : ResponseWriter) (r : Request) :
    (appHandlerBody lib env clk m.inFlightInc w r).metrics.httpRequestsInFlight
        = m.httpRequestsInFlight + 1
      ∧ (appHandler lib env clk m w r).metrics.httpRequestsInFlight = m.httpRequestsInFlight
      ∧ ((appHandler lib env clk m w r).panicked = true ↔ w.conn = .panics) := by
  refine ⟨?_, ?_, ?_⟩
  · rw [appHandlerBody_inFlight]; rfl
  · simp [appHandler_eq, Metrics.inFlightDec, appHandlerBody_inFlight, Metrics.inFlightInc]
  · exact appHandler_inFlight_panics lib env clk m w r

theorem appHandler_writer (lib : Lib) (env : Env) (clk : Readings) (m : Metrics)
    (conn : WriteBehaviour) (r : Request) :
    (appHandler lib env clk m (ResponseWriter.fresh conn) r).w.status = some 200
      ∧ (appHandler lib env clk m (ResponseWriter.fresh conn) r).w.sentHeader
        = [("Content-Type", "text/html; charset=utf-8"), ("X-Server", "Golang-HA-Server"),
            ("X-Version", "1.0.0")] := by
  rw [appHandler_eq]
  unfold appHandlerBody ResponseWriter.write
  cases conn <;>
    simp [ResponseWriter.fresh, ResponseWriter.writeHeader, ResponseWriter.setHeader]

theorem appHandler_page (lib : Lib) (env : Env) (clk : Readings) (m : Metrics) (r : Request) :
    (appHandler lib env clk m (ResponseWriter.fresh .succeeds) r).w.body
      = pageOutput (lib.format "2006-01-02 15:04:05" clk.renderNow)
          (getEnv env "ENVIRONMENT" "production") r.method r.path r.userAgent r.remoteAddr
          (getEnv env "HOSTNAME" "unknown") (lib.durationString clk.renderElapsed) := by
  rw [appHandler_eq]
  unfold appHandlerBody ResponseWriter.write
  simp [ResponseWriter.fresh, ResponseWriter.writeHeader, ResponseWriter.setHeader,
    Sprintf_pageTemplate]

/-- C8. For every request `appHandler` answers with status 200, and the header
block sent with the status line is exactly `Content-Type: text/html;
charset=utf-8`, `X-Server: Golang-HA-Server`, `X-Version: 1.0.0`, whatever the
request and whatever the connection does with the body: the three headers are
in the header map when the status line is written. -/
theorem appHandler_status_and_headers (lib : Lib) (env : Env) (clk : Readings) (m : Metrics)
    (conn : WriteBehaviour) (r : Request) :
    (appHandler lib env clk m (ResponseWriter.fresh conn) r).w.status = some 200
      ∧ headerGet (appHandler lib env clk m (ResponseWriter.fresh conn) r).w.sentHeader
          "Content-Type" = some "text/html; charset=utf-8"
      ∧ headerGet (appHandler lib env clk m (ResponseWriter.fresh conn) r).w.sentHeader
          "X-Server" = some "Golang-HA-Server"
      ∧ headerGet (appHandler lib env clk m (ResponseWriter.fresh conn) r).w.sentHeader
          "X-Version" = some "1.0.0"
      ∧ (appHandler lib env clk m (ResponseWriter.fresh conn) r).w.sentHeader.length = 3 := by
  obtain ⟨h1, h2⟩ := appHandler_writer lib env clk m conn r
  rw [h2]
  exact ⟨h1, by decide, by decide, by decide, rfl⟩

/-- C5. For every request and every current time `healthHandler` answers with
status 200 and `Content-Type: application/json`, hands to the connection exactly
the text `{"status":"healthy","timestamp":"T"}` with `T` the time in the RFC3339
layout, and leaves the registry (counter, histogram, gauge) as it was. -/
theorem healthHandler_response (lib : Lib) (now : Time) (m : Metrics) (conn : WriteBehaviour)
    (r : Request) :
    (healthHandler lib now m (ResponseWriter.fresh conn) r).w.status = some 200
      ∧ headerGet (healthHandler lib now m (ResponseWriter.fresh conn) r).w.sentHeader
          "Content-Type" = some "application/json"
      ∧ (healthHandler lib now m (ResponseWriter.fresh .succeeds) r).w.body
          = "\x7b\"status\":\"healthy\",\"timestamp\":\""
              ++ lib.format "2006-01-02T15:04:05Z07:00" now ++ "\"\x7d"
      ∧ (healthHandler lib now m (ResponseWriter.fresh conn) r).metrics = m := by
  unfold healthHandler ResponseWriter.write
  cases conn <;>
    simp [ResponseWriter.fresh, ResponseWriter.writeHeader, ResponseWriter.setHeader,
      headerGet, healthBody]

/-! ## The page and the environment -/

theorem getEnv_of_nonempty (env : Env) (key d v : String) (h : env key = some v)
    (hv : v ≠ "") : getEnv env key d = v := by
  simp [getEnv, osGetenv, h, hv]

theorem getEnv_of_unset_or_empty (env : Env) (key d : String)
    (h : env key = none ∨ env key = some "") : getEnv env key d = d := by
  rcases h with h | h <;> simp [getEnv, osGetenv, h]

/-- The routes registered by `main`, whatever the environment. -/
theorem main_mux (env : Env) :
    (main env).mux
      = { m := [("/", .app), ("/health", .health), ("/metrics", .metrics)],
          es := [("/", .app)], hosts := false } := by
  simp [main, ServeMux.handle, ServeMux.empty, appendSorted]

theorem main_addr (env : Env) : (main env).addr = ":" ++ getEnv env "PORT" "8080" := rfl

/-- Every operand of the page occurs in the page: printed after the label two
places before its own, or inside a bad-verb report in the style sheet. -/
theorem pageOutput_slots (a0 a1 a2 a3 a4 a5 a6 a7 : String) :
    occursIn ("0%!,(string=" ++ a0 ++ ")") (pageOutput a0 a1 a2 a3 a4 a5 a6 a7)
      ∧ occursIn ("100%!)(string=" ++ a1 ++ ")") (pageOutput a0 a1 a2 a3 a4 a5 a6 a7)
      ∧ occursIn ("<strong>Timestamp:</strong> " ++ a2 ++ "\n")
          (pageOutput a0 a1 a2 a3 a4 a5 a6 a7)
      ∧ occursIn ("<strong>Environment:</strong> " ++ a3 ++ "\n")
          (pageOutput a0 a1 a2 a3 a4 a5 a6 a7)
      ∧ occursIn ("<strong>Method:</strong> " ++ a4 ++ "\n")
          (pageOutput a0 a1 a2 a3 a4 a5 a6 a7)
      ∧ occursIn ("<strong>Path:</strong> " ++ a5 ++ "\n")
          (pageOutput a0 a1 a2 a3 a4 a5 a6 a7)
      ∧ occursIn ("<strong>User Agent:</strong> " ++ a6 ++ "\n")
          (pageOutput a0 a1 a2 a3 a4 a5 a6 a7)
      ∧ occursIn ("<strong>Remote Address:</strong> " ++ a7 ++ "\n")
          (pageOutput a0 a1 a2 a3 a4 a5 a6 a7)
      ∧ occursIn "<strong>Hostname:</strong> %!s(MISSING)\n"
          (pageOutput a0 a1 a2 a3 a4 a5 a6 a7)
      ∧ occursIn "<strong>Uptime:</strong> %!s(MISSING)\n"
          (pageOutput a0 a1 a2 a3 a4 a5 a6 a7) := by
  have hm1 : "<strong>Hostname:</strong> %!s(MISSING)\n".data
      = "<strong>Hostname:</strong> ".data ++ ("%!s(MISSING)".data ++ "\n".data) := by decide
  have hm2 : "<strong>Uptime:</strong> %!s(MISSING)\n".data
      = "<strong>Uptime:</strong> ".data ++ ("%!s(MISSING)".data ++ "\n".data) := by decide
  have hs0 : "0%!,(string=".data = "0".data ++ "%!,(string=".data := by decide
  have hs1 : "100%!)(string=".data = "100".data ++ "%!)(string=".data := by decide
  simp only [occursIn, pageOutput, String.data_append, List.append_assoc, hm1, hm2, hs0, hs1]
  refine ⟨?_, ?_, ?_, ?_, ?_, ?_, ?_, ?_, ?_, ?_⟩
  · obtain ⟨p, hp⟩ := label0
    exact ⟨p, _, by rw [← hp]; simp only [List.append_assoc]; rfl⟩
  · iterate 4 apply occurs_skip
    obtain ⟨p, hp⟩ := label1
    exact ⟨p, _, by rw [← hp]; simp only [List.append_assoc]; rfl⟩
  · iterate 8 apply occurs_skip
    exact occurs_slot _ _ label2 (newline_after 3 (by decide))
  · iterate 10 apply occurs_skip
    exact occurs_slot _ _ label3 (newline_after 4 (by decide))
  · iterate 12 apply occurs_skip
    exact occurs_slot _ _ label4 (newline_after 5 (by decide))
  · iterate 14 apply occurs_skip
    exact occurs_slot _ _ label5 (newline_after 6 (by decide))
  · iterate 16 apply occurs_skip
    exact occurs_slot _ _ label6 (newline_after 7 (by decide))
  · iterate 18 apply occurs_skip
    exact occurs_slot _ _ label7 (newline_after 8 (by decide))
  · iterate 20 apply occurs_skip
    exact occurs_slot "%!s(MISSING)".data _ label8 (newline_after 9 (by decide))
  · iterate 22 apply occurs_skip
    exact occurs_slot_end "%!s(MISSING)".data label9 (newline_after 10 (by decide))

theorem pageOutput_environment_inj (a0 e e2 a2 a3 a4 a5 a6 a7 : String)
    (h : pageOutput a0 e a2 a3 a4 a5 a6 a7 = pageOutput a0 e2 a2 a3 a4 a5 a6 a7) : e = e2 := by
  have h1 := congrArg String.data h
  simp only [pageOutput, List.append_assoc, List.append_cancel_left_eq] at h1
  exact String.ext (List.append_cancel_right h1)

theorem serveHTTP_app (lib : Lib) (exposition : Metrics → String) (mux : ServeMux)
    (m : Metrics) (a : Arrival) (h : dispatch mux a.req = .app) :
    serveHTTP lib exposition mux m a
      = appHandler lib a.env a.clk m (ResponseWriter.fresh a.conn) a.req := by
  simp [serveHTTP, h]

/-- C7 (the code at the failing input). For `GET /` from `curl/8.0` at
`10.0.0.7:5353` with no variable set, the page shows the method after the label
`Timestamp:`, the path after `Environment:`, the user agent after `Method:`, the
remote address after `Path:`, the host identifier after `User Agent:`, the
elapsed time after `Remote Address:`, `%!s(MISSING)` after `Hostname:` and after
`Uptime:`, and the environment name inside the style sheet. -/
theorem appHandler_page_misplaces_values :
    occursIn "<strong>Timestamp:</strong> GET\n"
        (appHandler refLib emptyEnv zeroReadings Metrics.init (ResponseWriter.fresh .succeeds)
          (sampleRequest "GET" "/")).w.body
      ∧ occursIn "<strong>Environment:</strong> /\n"
        (appHandler refLib emptyEnv zeroReadings Metrics.init (ResponseWriter.fresh .succeeds)
          (sampleRequest "GET" "/")).w.body
      ∧ occursIn "<strong>Method:</strong> curl/8.0\n"
        (appHandler refLib emptyEnv zeroReadings Metrics.init (ResponseWriter.fresh .succeeds)
          (sampleRequest "GET" "/")).w.body
      ∧ occursIn "<strong>Path:</strong> 10.0.0.7:5353\n"
        (appHandler refLib emptyEnv zeroReadings Metrics.init (ResponseWriter.fresh .succeeds)
          (sampleRequest "GET" "/")).w.body
      ∧ occursIn "<strong>User Agent:</strong> unknown\n"
        (appHandler refLib emptyEnv zeroReadings Metrics.init (ResponseWriter.fresh .succeeds)
          (sampleRequest "GET" "/")).w.body
      ∧ occursIn "<strong>Remote Address:</strong> 0s\n"
        (appHandler refLib emptyEnv zeroReadings Metrics.init (ResponseWriter.fresh .succeeds)
          (sampleRequest "GET" "/")).w.body
      ∧ occursIn "<strong>Hostname:</strong> %!s(MISSING)\n"
        (appHandler refLib emptyEnv zeroReadings Metrics.init (ResponseWriter.fresh .succeeds)
          (sampleRequest "GET" "/")).w.body
      ∧ occursIn "<strong>Uptime:</strong> %!s(MISSING)\n"
        (appHandler refLib emptyEnv zeroReadings Metrics.init (ResponseWriter.fresh .succeeds)
          (sampleRequest "GET" "/")).w.body
      ∧ occursIn "100%!)(string=production)"
        (appHandler refLib emptyEnv zeroReadings Metrics.init (ResponseWriter.fresh .succeeds)
          (sampleRequest "GET" "/")).w.body := by
  rw [appHandler_page]
  obtain ⟨_, h1, h2, h3, h4, h5, h6, h7, h8, h9⟩ :=
    pageOutput_slots (refLib.format "2006-01-02 15:04:05" zeroReadings.renderNow)
      (getEnv emptyEnv "ENVIRONMENT" "production") (sampleRequest "GET" "/").method
      (sampleRequest "GET" "/").path (sampleRequest "GET" "/").userAgent
      (sampleRequest "GET" "/").remoteAddr (getEnv emptyEnv "HOSTNAME" "unknown")
      (refLib.durationString zeroReadings.renderElapsed)
  exact ⟨h2, h3, h4, h5, h6, h7, h8, h9, h1⟩

/-! ## Routing -/

/-- A buffer of `path.Clean` (last byte first) whose first byte is the root slash. -/
theorem backtrack_rooted (buf : List Char) (h : ∃ t, buf = t ++ ['/']) (hl : 1 < buf.length) :
    ∃ t, backtrack 1 buf = t ++ ['/'] := by
  induction buf with
  | nil => simp at hl
  | cons c rest ih =>
    obtain ⟨t, ht⟩ := h
    have hrest : ∃ t2, rest = t2 ++ ['/'] := by
      cases t with
      | nil => simp at ht; simp [ht.2] at hl
      | cons x t2 => exact ⟨t2, by simpa using (List.cons.inj ht).2⟩
    unfold backtrack
    split_ifs with hc
    · exact ih hrest hc.1
    · exact hrest

theorem cleanLoop_rooted (rest : List Char) :
    ∀ (mode : Scan) (buf : List Char), (∃ t, buf = t ++ ['/']) →
      ∃ t, cleanLoop true mode rest buf 1 = t ++ ['/'] := by
  induction rest with
  | nil => intro mode buf h; cases mode <;> simpa [cleanLoop] using h
  | cons c rest ih =>
    intro mode buf h
    have hcons : ∀ x : Char, ∃ t, x :: buf = t ++ ['/'] := by
      intro x; obtain ⟨t, rfl⟩ := h; exact ⟨x :: t, rfl⟩
    cases mode with
    | copy =>
      unfold cleanLoop
      split_ifs
      · exact ih _ _ h
      · exact ih _ _ (hcons c)
    | dot2 =>
      unfold cleanLoop
      exact ih _ _ h
    | start =>
      unfold cleanLoop
      simp only [Bool.true_eq_false, not_true_eq_false, false_and, or_false, true_and,
        if_false, ite_false]
      split_ifs with h1 h2 h3 h4 h5
      · exact ih _ _ h
      · exact ih _ _ h
      · exact ih _ _ (backtrack_rooted buf h h4)
      · exact ih _ _ h
      · obtain ⟨t, ht⟩ := hcons '/'
        exact ih _ _ ⟨c :: t, by rw [ht]; rfl⟩
      · exact ih _ _ (hcons c)

theorem pathClean_rooted (p : List Char) (h : p.head? = some '/') :
    (pathClean p).head? = some '/' := by
  cases p with
  | nil => simp at h
  | cons c rest =>
    simp only [List.head?_cons, Option.some.injEq] at h
    subst h
    obtain ⟨t, ht⟩ := cleanLoop_rooted rest .start ['/'] ⟨[], rfl⟩
    simp [pathClean, ht]

theorem cleanPath_head (p : String) : (cleanPath p).data.head? = some '/' := by
  unfold cleanPath
  by_cases h1 : p = ""
  · rw [if_pos h1]; rfl
  · rw [if_neg h1]
    have hq : (if p.data.head? ≠ some '/' then '/' :: p.data else p.data).head? = some '/' := by
      by_cases h2 : p.data.head? = some '/'
      · simp [h2]
      · simp [h2]
    dsimp only
    generalize (if p.data.head? ≠ some '/' then '/' :: p.data else p.data) = q at hq
    have hnp := pathClean_rooted q hq
    split_ifs
    · exact hq
    · cases hp : pathClean q with
      | nil => simp [hp] at hnp
      | cons x xs => simpa [hp] using hnp
    · exact hnp

theorem main_exact (env : Env) (c : String) :
    (main env).mux.exact c
      = if c = "/" then some ("/", .app) else if c = "/health" then some ("/health", .health)
        else if c = "/metrics" then some ("/metrics", .metrics) else none := by
  rw [main_mux]
  simp only [ServeMux.exact, List.find?]
  by_cases h1 : c = "/"
  · subst h1; rfl
  · by_cases h2 : c = "/health"
    · subst h2; rfl
    · by_cases h3 : c = "/metrics"
      · subst h3; rfl
      · have e1 : decide ("/" = c) = false := by simpa using fun h => h1 h.symm
        have e2 : decide ("/health" = c) = false := by simpa using fun h => h2 h.symm
        have e3 : decide ("/metrics" = c) = false := by simpa using fun h => h3 h.symm
        simp [e1, e2, e3, h1, h2, h3]

theorem append_slash_ne (c s : String) (hs : s.data.getLast? ≠ some '/') : c ++ "/" ≠ s := by
  intro h
  apply hs
  rw [← h]
  simp [String.data_append]

theorem main_shouldRedirect (env : Env) (host path : String) :
    (main env).mux.shouldRedirect host path = false := by
  unfold ServeMux.shouldRedirect
  simp only [main_exact]
  by_cases hp : path.data.length = 0
  · simp [hp]
  · have hpath : path ≠ "" := by
      intro h; apply hp; rw [h]; rfl
    have hhost : host ++ path ≠ "" := by
      intro h
      have := congrArg String.data h
      simp only [String.data_append] at this
      have h2 : path.data = [] := (List.append_eq_nil.1 this).2
      exact hp (by rw [h2]; rfl)
    have k1 : ∀ c : String, c ≠ "" → c ++ "/" ≠ "/" := by
      intro c hc h
      apply hc
      have := congrArg String.data h
      simp only [String.data_append] at this
      have h2 : c.data = [] := by
        have h3 : c.data ++ ['/'] = [] ++ ['/'] := this
        exact List.append_cancel_right h3
      exact String.ext h2
    have k2 : ∀ c : String, c ++ "/" ≠ "/health" := fun c => append_slash_ne c _ (by decide)
    have k3 : ∀ c : String, c ++ "/" ≠ "/metrics" := fun c => append_slash_ne c _ (by decide)
    simp [hp, k1 _ hpath, k1 _ hhost, k2, k3]

/-- The route of a request whose path is in the form `cleanPath` gives. -/
theorem main_Handler_clean (env : Env) (r : Request) (hc : cleanPath r.path = r.path) :
    (main env).mux.Handler r
      = if r.path = "/health" then .health else if r.path = "/metrics" then .metrics
        else .app := by
  have hhead : r.path.data.head? = some '/' := by rw [← hc]; exact cleanPath_head _
  have hpre : startsWith r.path "/" = true := by
    unfold startsWith
    cases hd : r.path.data with
    | nil => simp [hd] at hhead
    | cons x xs =>
      simp [hd] at hhead
      subst hhead
      simp [List.isPrefixOf]
  have hh : (main env).mux.handler r.host r.path
      = if r.path = "/health" then .health else if r.path = "/metrics" then .metrics
        else .app := by
    unfold ServeMux.handler ServeMux.matchPath
    simp only [main_exact]
    rw [main_mux]
    by_cases h1 : r.path = "/"
    · simp [h1]
    · by_cases h2 : r.path = "/health"
      · simp [h2]
      · by_cases h3 : r.path = "/metrics"
        · simp [h3]
        · simp [h1, h2, h3, hpre]
  unfold ServeMux.Handler
  simp only [main_shouldRedirect, hc, hh]
  simp

/-- With the routes of `main` a request for `*` does not reach `appHandler`
through the mux either. -/
theorem main_Handler_star (env : Env) (r : Request) (h : r.path = "*") :
    (main env).mux.Handler r ≠ .app := by
  unfold ServeMux.Handler
  simp only [main_shouldRedirect, h]
  by_cases hm : r.method = "CONNECT"
  · have hh : (main env).mux.handler r.host "*" = .notFound := by
      unfold ServeMux.handler ServeMux.matchPath
      simp only [main_exact]
      rw [main_mux]
      have h1 : startsWith "*" "/" = false := by decide
      simp [h1]
    simp [hm, hh]
  · have hc : cleanPath "*" ≠ "*" := by decide
    simp [hm, hc]

/-- With the routes of `main` the requests answered by `appHandler` are those
the mux sends to it. -/
theorem main_dispatch_app (env : Env) (r : Request) :
    dispatch (main env).mux r = .app ↔ (main env).mux.Handler r = .app := by
  unfold dispatch
  by_cases h : r.path = "*"
  · have := main_Handler_star env r h
    simp only [h, if_true]
    constructor
    · intro h2
      split_ifs at h2
    · intro h2
      exact absurd h2 this
  · simp [h]

/-- C10. `getEnv` returns the value of a variable that is set to a non-empty
string and the default otherwise, a variable set to the empty string counting
as unset: with `ENVIRONMENT=""` the page is rendered with `production`, and with
`PORT=""` the server listens on `:8080`. -/
theorem getEnv_value_or_default (env : Env) :
    (∀ key d v : String, env key = some v → v ≠ "" → getEnv env key d = v)
      ∧ (∀ key d : String, env key = none ∨ env key = some "" → getEnv env key d = d)
      ∧ (env "ENVIRONMENT" = some "" →
          ∀ (lib : Lib) (clk : Readings) (m : Metrics) (r : Request),
            (appHandler lib env clk m (ResponseWriter.fresh .succeeds) r).w.body
                = pageOutput (lib.format "2006-01-02 15:04:05" clk.renderNow) "production"
                    r.method r.path r.userAgent r.remoteAddr (getEnv env "HOSTNAME" "unknown")
                    (lib.durationString clk.renderElapsed)
              ∧ occursIn "production"
                  (appHandler lib env clk m (ResponseWriter.fresh .succeeds) r).w.body)
      ∧ (env "PORT" = some "" → (main env).addr = ":8080") := by
  refine ⟨fun key d v h hv => getEnv_of_nonempty env key d v h hv,
    fun key d h => getEnv_of_unset_or_empty env key d h, fun h lib clk m r => ?_, fun h => ?_⟩
  · have he : getEnv env "ENVIRONMENT" "production" = "production" :=
      getEnv_of_unset_or_empty env _ _ (Or.inr h)
    rw [appHandler_page, he]
    refine ⟨rfl, ?_⟩
    obtain ⟨_, h1, _⟩ := pageOutput_slots (lib.format "2006-01-02 15:04:05" clk.renderNow)
      "production" r.method r.path r.userAgent r.remoteAddr (getEnv env "HOSTNAME" "unknown")
      (lib.durationString clk.renderElapsed)
    obtain ⟨a, b, hab⟩ := h1
    refine ⟨a ++ "100%!)(string=".data, ")".data ++ b, ?_⟩
    rw [← hab]
    simp [String.data_append]
  · rw [main_addr, getEnv_of_unset_or_empty env _ _ (Or.inr h)]
    rfl

/-- C10 (witness). With every variable set to the empty string the defaults
are used; a variable set to `staging` is returned. -/
theorem getEnv_value_or_default_witness :
    getEnv (singleEnv "ENVIRONMENT" "staging") "ENVIRONMENT" "production" = "staging"
      ∧ getEnv blankEnv "HOSTNAME" "unknown" = "unknown"
      ∧ occursIn "production"
          (appHandler refLib blankEnv zeroReadings Metrics.init (ResponseWriter.fresh .succeeds)
            (sampleRequest "GET" "/")).w.body
      ∧ (main blankEnv).addr = ":8080" :=
  ⟨(getEnv_value_or_default (singleEnv "ENVIRONMENT" "staging")).1 "ENVIRONMENT" "production"
      "staging" (by decide) (by decide),
    (getEnv_value_or_default blankEnv).2.1 "HOSTNAME" "unknown" (Or.inr rfl),
    ((getEnv_value_or_default blankEnv).2.2.1 rfl refLib zeroReadings Metrics.init
      (sampleRequest "GET" "/")).2,
    (getEnv_value_or_default blankEnv).2.2.2 rfl⟩

/-- C6 (counterexample). The server is started with `ENVIRONMENT=staging`; a
request handled while the variable holds `dev` gets the page rendered with
`dev`, which is not the page rendered with the startup value. -/
theorem page_follows_environment_after_startup :
    (serveHTTP refLib noExposition (main (singleEnv "ENVIRONMENT" "staging")).mux Metrics.init
        (arrivalIn (singleEnv "ENVIRONMENT" "dev") "GET" "/")).w.body
        = pageOutput "2006-01-02 15:04:05" "dev" "GET" "/" "curl/8.0" "10.0.0.7:5353"
            "unknown" "0s"
      ∧ (serveHTTP refLib noExposition (main (singleEnv "ENVIRONMENT" "staging")).mux
          Metrics.init (arrivalIn (singleEnv "ENVIRONMENT" "dev") "GET" "/")).w.body
        ≠ pageOutput "2006-01-02 15:04:05" "staging" "GET" "/" "curl/8.0" "10.0.0.7:5353"
            "unknown" "0s" := by
  have hr : (main (singleEnv "ENVIRONMENT" "staging")).mux.Handler
      (arrivalIn (singleEnv "ENVIRONMENT" "dev") "GET" "/").req = .app := by
    rw [main_Handler_clean _ _ (by decide)]; decide
  have hb : (serveHTTP refLib noExposition (main (singleEnv "ENVIRONMENT" "staging")).mux
      Metrics.init (arrivalIn (singleEnv "ENVIRONMENT" "dev") "GET" "/")).w.body
      = pageOutput "2006-01-02 15:04:05" "dev" "GET" "/" "curl/8.0" "10.0.0.7:5353"
          "unknown" "0s" := by
    rw [serveHTTP_app _ _ _ _ _ ((main_dispatch_app _ _).2 hr)]
    exact appHandler_page refLib (singleEnv "ENVIRONMENT" "dev") zeroReadings Metrics.init
      (sampleRequest "GET" "/")
  refine ⟨hb, ?_⟩
  rw [hb]
  intro h
  have := pageOutput_environment_inj _ _ _ _ _ _ _ _ _ h
  exact absurd this (by decide)

/-- C6 (amended). `ENVIRONMENT` and `HOSTNAME` are read from the process
environment on every request: the page served by `appHandler` shows the values
the environment holds while the request is handled, so it shows the startup
values when the two variables have not changed since startup.  Of the
environment at startup the server keeps the port alone. -/
theorem page_shows_environment_of_request (lib : Lib) (exposition : Metrics → String)
    (startEnv : Env) (m : Metrics) (a : Arrival)
    (hroute : (main startEnv).mux.Handler a.req = .app) (hconn : a.conn = .succeeds) :
    (serveHTTP lib exposition (main startEnv).mux m a).w.body
        = pageOutput (lib.format "2006-01-02 15:04:05" a.clk.renderNow)
            (getEnv a.env "ENVIRONMENT" "production") a.req.method a.req.path a.req.userAgent
            a.req.remoteAddr (getEnv a.env "HOSTNAME" "unknown")
            (lib.durationString a.clk.renderElapsed)
      ∧ (a.env "ENVIRONMENT" = startEnv "ENVIRONMENT" → a.env "HOSTNAME" = startEnv "HOSTNAME" →
          (serveHTTP lib exposition (main startEnv).mux m a).w.body
            = pageOutput (lib.format "2006-01-02 15:04:05" a.clk.renderNow)
                (getEnv startEnv "ENVIRONMENT" "production") a.req.method a.req.path
                a.req.userAgent a.req.remoteAddr (getEnv startEnv "HOSTNAME" "unknown")
                (lib.durationString a.clk.renderElapsed))
      ∧ (main startEnv).addr = ":" ++ getEnv startEnv "PORT" "8080" := by
  have hb := appHandler_page lib a.env a.clk m a.req
  rw [serveHTTP_app _ _ _ _ _ ((main_dispatch_app _ _).2 hroute), hconn]
  refine ⟨hb, fun h1 h2 => ?_, rfl⟩
  rw [hb]
  simp [getEnv, osGetenv, h1, h2]

/-- C6 (witness). Started with `ENVIRONMENT=staging` and serving while the
variable holds `dev`, the page is the one rendered with `dev`; serving while the
environment is still the one of startup, the page is rendered with `staging`. -/
theorem page_shows_environment_of_request_witness :
    (serveHTTP refLib noExposition (main (singleEnv "ENVIRONMENT" "staging")).mux Metrics.init
        (arrivalIn (singleEnv "ENVIRONMENT" "dev") "GET" "/")).w.body
        = pageOutput "2006-01-02 15:04:05" "dev" "GET" "/" "curl/8.0" "10.0.0.7:5353"
            "unknown" "0s"
      ∧ (serveHTTP refLib noExposition (main (singleEnv "ENVIRONMENT" "staging")).mux
          Metrics.init (arrivalIn (singleEnv "ENVIRONMENT" "staging") "GET" "/")).w.body
        = pageOutput "2006-01-02 15:04:05" "staging" "GET" "/" "curl/8.0" "10.0.0.7:5353"
            "unknown" "0s" :=
  ⟨(page_shows_environment_of_request refLib noExposition (singleEnv "ENVIRONMENT" "staging")
      Metrics.init (arrivalIn (singleEnv "ENVIRONMENT" "dev") "GET" "/")
      (by rw [main_Handler_clean _ _ (by decide)]; decide) rfl).1,
    (page_shows_environment_of_request refLib noExposition (singleEnv "ENVIRONMENT" "staging")
      Metrics.init (arrivalIn (singleEnv "ENVIRONMENT" "staging") "GET" "/")
      (by rw [main_Handler_clean _ _ (by decide)]; decide) rfl).2.1 rfl rfl⟩

/-! ## Counter and histogram -/

theorem Vec.child_update_same {α : Type} (zero : α) (f : α → α) (k : List String)
    (v : Vec α) :
    Vec.child (Vec.update zero f k v) k = some (f ((Vec.child v k).getD zero)) := by
  induction v with
  | nil => simp [Vec.update, Vec.child]
  | cons kv rest ih =>
    obtain ⟨k2, x⟩ := kv
    by_cases h : k2 = k
    · simp [Vec.update, Vec.child, h]
    · simp only [Vec.child] at ih
      simp [Vec.update, Vec.child, h, ih]

theorem Vec.child_update_other {α : Type} (zero : α) (f : α → α) (k k2 : List String)
    (v : Vec α) (h : k2 ≠ k) :
    Vec.child (Vec.update zero f k v) k2 = Vec.child v k2 := by
  induction v with
  | nil => simp [Vec.update, Vec.child, h.symm]
  | cons kv rest ih =>
    obtain ⟨k3, x⟩ := kv
    by_cases h3 : k3 = k
    · subst h3
      simp [Vec.update, Vec.child, h.symm]
    · simp only [Vec.child] at ih
      by_cases h4 : k3 = k2
      · subst h4
        simp [Vec.update, Vec.child, h3]
      · simp [Vec.update, Vec.child, h3, h4, ih]

theorem Vec.key_of_mem_update {α : Type} (zero : α) (f : α → α) (k : List String)
    (v : Vec α) (kv : List String × α) (h : kv ∈ Vec.update zero f k v) :
    kv.1 = k ∨ ∃ kv2 ∈ v, kv2.1 = kv.1 := by
  induction v with
  | nil =>
    left
    simp only [Vec.update, List.mem_singleton] at h
    rw [h]
  | cons x rest ih =>
    obtain ⟨k3, y⟩ := x
    by_cases h3 : k3 = k
    · simp only [Vec.update, h3, if_true, List.mem_cons] at h
      rcases h with h | h
      · left; rw [h]
      · right; exact ⟨kv, List.mem_cons_of_mem _ h, rfl⟩
    · simp only [Vec.update, h3, if_false, List.mem_cons] at h
      rcases h with h | h
      · right; exact ⟨(k3, y), List.mem_cons_self _ _, by rw [h]⟩
      · rcases ih h with h5 | ⟨kv2, h6, h7⟩
        · left; exact h5
        · right; exact ⟨kv2, List.mem_cons_of_mem _ h6, h7⟩

/-- What `appHandler` does to the registry when it returns. -/
theorem appHandler_metrics_returned (lib : Lib) (env : Env) (clk : Readings) (m : Metrics)
    (w : ResponseWriter) (r : Request) (h : w.conn ≠ .panics) :
    (appHandler lib env clk m w r).metrics
      = (m.countRequest [r.method, r.path, "200"]).observeDuration [r.method, r.path]
          (seconds clk.recordElapsed) := by
  rw [appHandler_eq]
  unfold appHandlerBody ResponseWriter.write
  cases hc : w.conn <;>
    simp [hc, ResponseWriter.writeHeader, ResponseWriter.setHeader, Metrics.countRequest,
      Metrics.observeDuration, Metrics.inFlightInc, Metrics.inFlightDec] at h ⊢ <;>
    cases w.status <;>
    simp [hc, Metrics.countRequest, Metrics.observeDuration, Metrics.inFlightInc,
      Metrics.inFlightDec]

/-- What `appHandler` does to the registry when the write panics. -/
theorem appHandler_metrics_panicked (lib : Lib) (env : Env) (clk : Readings) (m : Metrics)
    (w : ResponseWriter) (r : Request) (h : w.conn = .panics) :
    (appHandler lib env clk m w r).metrics = m := by
  rw [appHandler_eq]
  unfold appHandlerBody ResponseWriter.write
  simp [h, ResponseWriter.writeHeader, ResponseWriter.setHeader, Metrics.inFlightInc,
    Metrics.inFlightDec]
  cases w.status <;> simp [h]

theorem counterValue_update_same (k : List String) (v : Vec Nat) :
    counterValue (Vec.update 0 (· + 1) k v) k = counterValue v k + 1 := by
  simp [counterValue, Vec.child_update_same]

theorem histCount_update_same (x : ℚ) (k : List String) (v : Vec Histogram) :
    histCount (Vec.update Histogram.empty (Histogram.observe x) k v) k = histCount v k + 1 := by
  simp only [histCount, Vec.child_update_same]
  cases Vec.child v k <;> simp [Histogram.observe, Histogram.empty]

theorem histSum_update_same (x : ℚ) (k : List String) (v : Vec Histogram) :
    histSum (Vec.update Histogram.empty (Histogram.observe x) k v) k = histSum v k + x := by
  simp only [histSum, Vec.child_update_same]
  cases Vec.child v k <;> simp [Histogram.observe, Histogram.empty]

theorem histCount_update_other (x : ℚ) (k k2 : List String) (v : Vec Histogram) (h : k2 ≠ k) :
    histCount (Vec.update Histogram.empty (Histogram.observe x) k v) k2 = histCount v k2 := by
  simp only [histCount, Vec.child_update_other _ _ _ _ _ h]

theorem histSum_update_other (x : ℚ) (k k2 : List String) (v : Vec Histogram) (h : k2 ≠ k) :
    histSum (Vec.update Histogram.empty (Histogram.observe x) k v) k2 = histSum v k2 := by
  simp only [histSum, Vec.child_update_other _ _ _ _ _ h]

theorem seconds_nonneg (n : Nat) : 0 ≤ seconds n := by
  unfold seconds
  positivity

/-- What serving one request does to the registry. -/
theorem serveHTTP_metrics_dispatch (lib : Lib) (exposition : Metrics → String)
    (mux : ServeMux) (m : Metrics) (a : Arrival) :
    (serveHTTP lib exposition mux m a).metrics
      = if dispatch mux a.req = .app ∧ a.conn ≠ .panics then
          (m.countRequest [a.req.method, a.req.path, "200"]).observeDuration
            [a.req.method, a.req.path] (seconds a.clk.recordElapsed)
        else m := by
  unfold serveHTTP
  cases hh : dispatch mux a.req with
  | app =>
    by_cases hc : a.conn = .panics
    · rw [if_neg (fun h => h.2 hc)]
      exact appHandler_metrics_panicked _ _ _ _ _ _ hc
    · rw [if_pos ⟨rfl, hc⟩]
      exact appHandler_metrics_returned _ _ _ _ _ _ hc
  | health =>
    simp only [healthHandler, ResponseWriter.write, false_and, if_false, reduceCtorEq]
    cases a.conn <;> rfl
  | metrics =>
    simp only [metricsHandler, ResponseWriter.write, false_and, if_false, reduceCtorEq]
    cases a.conn <;> rfl
  | notFound =>
    simp only [notFoundHandler, ResponseWriter.write, false_and, if_false, reduceCtorEq]
    cases a.conn <;> rfl
  | redirect t =>
    simp only [redirectHandler, ResponseWriter.write, false_and, if_false, reduceCtorEq]
    split_ifs <;> cases a.conn <;> rfl
  | badRequest =>
    simp only [badRequestHandler, false_and, if_false, reduceCtorEq]
  | globalOptions =>
    simp only [globalOptionsHandler, false_and, if_false, reduceCtorEq]

/-- What serving one request does to the registry, for a mux that sends no
request for `*` to `appHandler`. -/
theorem serveHTTP_metrics (lib : Lib) (exposition : Metrics → String) (mux : ServeMux)
    (hd : ∀ r : Request, dispatch mux r = .app ↔ mux.Handler r = .app)
    (m : Metrics) (a : Arrival) :
    (serveHTTP lib exposition mux m a).metrics
      = if mux.Handler a.req = .app ∧ a.conn ≠ .panics then
          (m.countRequest [a.req.method, a.req.path, "200"]).observeDuration
            [a.req.method, a.req.path] (seconds a.clk.recordElapsed)
        else m := by
  rw [serveHTTP_metrics_dispatch]
  simp only [hd]

theorem serveAll_append (lib : Lib) (exposition : Metrics → String) (mux : ServeMux)
    (as : List Arrival) (a : Arrival) :
    ∀ m : Metrics, serveAll lib exposition mux m (as ++ [a])
      = (serveHTTP lib exposition mux (serveAll lib exposition mux m as) a).metrics := by
  induction as with
  | nil => intro m; rfl
  | cons b as ih => intro m; exact ih _

theorem serveHTTP_histCount (lib : Lib) (exposition : Metrics → String) (mux : ServeMux)
    (hd : ∀ r : Request, dispatch mux r = .app ↔ mux.Handler r = .app)
    (m : Metrics) (a : Arrival) (method path : String) :
    histCount (serveHTTP lib exposition mux m a).metrics.httpRequestDuration [method, path]
      = histCount m.httpRequestDuration [method, path] + requestsRecorded mux method path [a] := by
  rw [serveHTTP_metrics _ _ _ hd]
  by_cases h : mux.Handler a.req = .app ∧ a.conn ≠ .panics
  · rw [if_pos h]
    by_cases hk : a.req.method = method ∧ a.req.path = path
    · obtain ⟨h1, h2⟩ := hk
      subst h1 h2
      simp [Metrics.observeDuration, Metrics.countRequest, histCount_update_same,
        requestsRecorded, h]
    · have hne : [method, path] ≠ [a.req.method, a.req.path] := by
        intro e
        simp only [List.cons.injEq, and_true] at e
        exact hk ⟨e.1.symm, e.2.symm⟩
      have hz : requestsRecorded mux method path [a] = 0 := by
        simp only [requestsRecorded, List.length_eq_zero, List.filter_eq_nil_iff,
          List.mem_singleton, decide_eq_true_eq, forall_eq]
        tauto
      simp [Metrics.observeDuration, Metrics.countRequest, histCount_update_other _ _ _ _ hne,
        hz]
  · rw [if_neg h]
    have hz : requestsRecorded mux method path [a] = 0 := by
      simp only [requestsRecorded, List.length_eq_zero, List.filter_eq_nil_iff,
        List.mem_singleton, decide_eq_true_eq, forall_eq]
      tauto
    simp [hz]

theorem serveHTTP_histSum (lib : Lib) (exposition : Metrics → String) (mux : ServeMux)
    (hd : ∀ r : Request, dispatch mux r = .app ↔ mux.Handler r = .app)
    (m : Metrics) (a : Arrival) (k : List String) :
    histSum m.httpRequestDuration k
      ≤ histSum (serveHTTP lib exposition mux m a).metrics.httpRequestDuration k := by
  rw [serveHTTP_metrics _ _ _ hd]
  split_ifs with h
  · by_cases hk : k = [a.req.method, a.req.path]
    · subst hk
      simp only [Metrics.observeDuration, Metrics.countRequest, histSum_update_same]
      linarith [seconds_nonneg a.clk.recordElapsed]
    · simp only [Metrics.observeDuration, Metrics.countRequest,
        histSum_update_other _ _ _ _ hk]
      exact le_refl _
  · exact le_refl _

theorem serveAll_histCount (lib : Lib) (exposition : Metrics → String) (mux : ServeMux)
    (hd : ∀ r : Request, dispatch mux r = .app ↔ mux.Handler r = .app)
    (method path : String) (as : List Arrival) :
    ∀ m : Metrics,
      histCount (serveAll lib exposition mux m as).httpRequestDuration [method, path]
        = histCount m.httpRequestDuration [method, path]
          + requestsRecorded mux method path as := by
  induction as with
  | nil => intro m; simp [serveAll, requestsRecorded]
  | cons a as ih =>
    intro m
    rw [serveAll, ih, serveHTTP_histCount _ _ _ hd]
    simp only [requestsRecorded, List.filter_cons, List.filter_nil]
    split_ifs <;> simp only [List.length_cons, List.length_nil] <;> omega

theorem serveAll_histSum (lib : Lib) (exposition : Metrics → String) (mux : ServeMux)
    (hd : ∀ r : Request, dispatch mux r = .app ↔ mux.Handler r = .app)
    (k : List String) (as : List Arrival) :
    ∀ m : Metrics,
      histSum m.httpRequestDuration k
        ≤ histSum (serveAll lib exposition mux m as).httpRequestDuration k := by
  induction as with
  | nil => intro m; exact le_refl _
  | cons a as ih =>
    intro m
    rw [serveAll]
    exact le_trans (serveHTTP_histSum lib exposition mux hd m a k) (ih _)

theorem serveHTTP_counter_same (lib : Lib) (exposition : Metrics → String) (mux : ServeMux)
    (hd : ∀ r : Request, dispatch mux r = .app ↔ mux.Handler r = .app) (m : Metrics) (a : Arrival) (h : mux.Handler a.req = .app) (hc : a.conn ≠ .panics) :
    counterValue (serveHTTP lib exposition mux m a).metrics.httpRequestsTotal
        [a.req.method, a.req.path, "200"]
      = counterValue m.httpRequestsTotal [a.req.method, a.req.path, "200"] + 1 := by
  rw [serveHTTP_metrics _ _ _ hd, if_pos ⟨h, hc⟩]
  simp [Metrics.observeDuration, Metrics.countRequest, counterValue_update_same]

theorem serveHTTP_counter_keys (lib : Lib) (exposition : Metrics → String) (mux : ServeMux)
    (hd : ∀ r : Request, dispatch mux r = .app ↔ mux.Handler r = .app) (m : Metrics) (a : Arrival) (P : List String → Prop)
    (hm : ∀ kv ∈ m.httpRequestsTotal, P kv.1)
    (ha : mux.Handler a.req = .app → a.conn ≠ .panics → P [a.req.method, a.req.path, "200"]) :
    ∀ kv ∈ (serveHTTP lib exposition mux m a).metrics.httpRequestsTotal, P kv.1 := by
  rw [serveHTTP_metrics _ _ _ hd]
  split_ifs with h
  · intro kv hkv
    simp only [Metrics.observeDuration, Metrics.countRequest] at hkv
    rcases Vec.key_of_mem_update _ _ _ _ _ hkv with h1 | ⟨kv2, h2, h3⟩
    · rw [h1]; exact ha h.1 h.2
    · rw [← h3]; exact hm kv2 h2
  · exact hm

theorem serveAll_counter_keys (lib : Lib) (exposition : Metrics → String) (mux : ServeMux)
    (hd : ∀ r : Request, dispatch mux r = .app ↔ mux.Handler r = .app)
    (P : List String → Prop) (as : List Arrival)
    (ha : ∀ a ∈ as, mux.Handler a.req = .app → a.conn ≠ .panics →
      P [a.req.method, a.req.path, "200"]) :
    ∀ m : Metrics, (∀ kv ∈ m.httpRequestsTotal, P kv.1) →
      ∀ kv ∈ (serveAll lib exposition mux m as).httpRequestsTotal, P kv.1 := by
  induction as with
  | nil => intro m hm; exact hm
  | cons a as ih =>
    intro m hm
    rw [serveAll]
    exact ih (fun b hb => ha b (List.mem_cons_of_mem _ hb)) _
      (serveHTTP_counter_keys lib exposition mux hd m a P hm (ha a (List.mem_cons_self _ _)))

theorem serveAll_counter_root (lib : Lib) (exposition : Metrics → String) (env : Env)
    (as : List Arrival)
    (h : ∀ a ∈ as, a.req.method = "GET" ∧ a.req.path = "/" ∧ a.conn ≠ .panics) :
    ∀ m : Metrics,
      counterValue (serveAll lib exposition (main env).mux m as).httpRequestsTotal
          ["GET", "/", "200"]
        = counterValue m.httpRequestsTotal ["GET", "/", "200"] + as.length := by
  induction as with
  | nil => intro m; simp [serveAll]
  | cons a as ih =>
    intro m
    obtain ⟨h1, h2, h3⟩ := h a (List.mem_cons_self _ _)
    have hr : (main env).mux.Handler a.req = .app := by
      rw [main_Handler_clean env a.req (by rw [h2]; decide), h2]; decide
    have hs := serveHTTP_counter_same lib exposition (main env).mux (main_dispatch_app env) m a
      hr h3
    rw [h1, h2] at hs
    rw [serveAll, ih (fun b hb => h b (List.mem_cons_of_mem _ hb)), hs, List.length_cons]
    omega

/-- C2. A request with method `m` and path `p` that `appHandler` handles to
completion adds exactly 1 to the counter for `(m, p, "200")` and leaves every
other label combination as it was, whether the response write succeeded or
returned an error.  After N requests `GET /` served from an empty registry the
counter for `(GET, /, "200")` is N and is the only counter; and whatever the
requests served, every counter that exists has the status label `"200"`. -/
theorem requests_total_counts (lib : Lib) (exposition : Metrics → String) :
    (∀ (env : Env) (clk : Readings) (m : Metrics) (w : ResponseWriter) (r : Request),
        (appHandler lib env clk m w r).panicked = false →
          counterValue (appHandler lib env clk m w r).metrics.httpRequestsTotal
              [r.method, r.path, "200"]
            = counterValue m.httpRequestsTotal [r.method, r.path, "200"] + 1
          ∧ ∀ lvs : List String, lvs ≠ [r.method, r.path, "200"] →
              Vec.child (appHandler lib env clk m w r).metrics.httpRequestsTotal lvs
                = Vec.child m.httpRequestsTotal lvs)
      ∧ (∀ (startEnv : Env) (as : List Arrival),
          (∀ a ∈ as, a.req.method = "GET" ∧ a.req.path = "/" ∧ a.conn ≠ .panics) →
            counterValue
                (serveAll lib exposition (main startEnv).mux Metrics.init as).httpRequestsTotal
                ["GET", "/", "200"] = as.length
              ∧ ∀ kv ∈ (serveAll lib exposition (main startEnv).mux Metrics.init
                  as).httpRequestsTotal, kv.1 = ["GET", "/", "200"])
      ∧ (∀ (startEnv : Env) (as : List Arrival),
          ∀ kv ∈ (serveAll lib exposition (main startEnv).mux Metrics.init as).httpRequestsTotal,
            ∃ method path : String, kv.1 = [method, path, "200"]) := by
  refine ⟨fun env clk m w r hp => ?_, fun startEnv as h => ⟨?_, ?_⟩, fun startEnv as => ?_⟩
  · have hc : w.conn ≠ .panics := by
      intro hc
      have := (appHandler_inFlight_panics lib env clk m w r).2 hc
      rw [hp] at this
      exact absurd this (by decide)
    rw [appHandler_metrics_returned lib env clk m w r hc]
    refine ⟨by simp [Metrics.observeDuration, Metrics.countRequest, counterValue_update_same],
      fun lvs hl => ?_⟩
    simp [Metrics.observeDuration, Metrics.countRequest, Vec.child_update_other _ _ _ _ _ hl]
  · rw [serveAll_counter_root lib exposition startEnv as h]
    simp [Metrics.init, counterValue, Vec.child]
  · refine serveAll_counter_keys lib exposition _ (main_dispatch_app startEnv)
      (fun k => k = ["GET", "/", "200"]) as
      (fun a ha _ _ => ?_) Metrics.init (by simp [Metrics.init])
    obtain ⟨h1, h2, _⟩ := h a ha
    rw [h1, h2]
  · exact serveAll_counter_keys lib exposition _ (main_dispatch_app startEnv)
      (fun k => ∃ method path : String, k = [method, path, "200"]) as
      (fun a _ _ _ => ⟨_, _, rfl⟩) Metrics.init (by simp [Metrics.init])

/-- C2 (witness). Five requests `GET /` served from an empty registry leave the
counter for `(GET, /, "200")` at 5; one such request handled by `appHandler`
leaves it at 1. -/
theorem requests_total_counts_witness :
    counterValue
        (serveAll refLib noExposition (main emptyEnv).mux Metrics.init
          (List.replicate 5 (sampleArrival "GET" "/"))).httpRequestsTotal
        ["GET", "/", "200"] = 5
      ∧ counterValue
          (appHandler refLib emptyEnv zeroReadings Metrics.init (ResponseWriter.fresh .fails)
            (sampleRequest "GET" "/")).metrics.httpRequestsTotal
          ["GET", "/", "200"] = 0 + 1 :=
  ⟨((requests_total_counts refLib noExposition).2.1 emptyEnv
      (List.replicate 5 (sampleArrival "GET" "/"))
      (fun a ha => by
        rw [List.eq_of_mem_replicate ha]
        exact ⟨rfl, rfl, by decide⟩)).1,
    ((requests_total_counts refLib noExposition).1 emptyEnv zeroReadings Metrics.init
      (ResponseWriter.fresh .fails) (sampleRequest "GET" "/") rfl).1⟩

/-- C3 (counterexample). One request `GET /health` is served from an empty
registry: the sequence holds one request with that method and path, and the
histogram for `(GET, /health)` has no observation. -/
theorem health_request_not_observed :
    requestsTo "GET" "/health" [sampleArrival "GET" "/health"] = 1
      ∧ histCount
          (serveAll refLib noExposition (main emptyEnv).mux Metrics.init
            [sampleArrival "GET" "/health"]).httpRequestDuration
          ["GET", "/health"] = 0 := by
  refine ⟨by decide, ?_⟩
  rw [serveAll_histCount _ _ _ (main_dispatch_app emptyEnv)]
  have hr : (main emptyEnv).mux.Handler (sampleArrival "GET" "/health").req = .health := by
    rw [main_Handler_clean _ _ (by decide)]; decide
  simp [requestsRecorded, hr, Metrics.init, histCount, Vec.child]

/-- C3 (amended). For every sequence of requests served from an empty registry
and every (method, path), the observation count of the duration histogram for
that pair is the number of requests of the sequence with that method and path
that were dispatched to `appHandler` and handled to completion (requests routed
to `healthHandler`, `metricsHandler` or a redirect are not observed); the sum
for that pair is non-negative and does not decrease when one more request is
served. -/
theorem duration_histogram_counts (lib : Lib) (exposition : Metrics → String) (startEnv : Env)
    (as : List Arrival) (method path : String) :
    histCount (serveAll lib exposition (main startEnv).mux Metrics.init as).httpRequestDuration
        [method, path] = requestsRecorded (main startEnv).mux method path as
      ∧ 0 ≤ histSum
          (serveAll lib exposition (main startEnv).mux Metrics.init as).httpRequestDuration
          [method, path]
      ∧ ∀ a : Arrival,
          histSum
              (serveAll lib exposition (main startEnv).mux Metrics.init as).httpRequestDuration
              [method, path]
            ≤ histSum
                (serveAll lib exposition (main startEnv).mux Metrics.init
                  (as ++ [a])).httpRequestDuration [method, path] := by
  refine ⟨?_, ?_, fun a => ?_⟩
  · rw [serveAll_histCount _ _ _ (main_dispatch_app startEnv)]
    simp [Metrics.init, histCount, Vec.child]
  · have := serveAll_histSum lib exposition (main startEnv).mux (main_dispatch_app startEnv)
      [method, path] as Metrics.init
    simpa [Metrics.init, histSum, Vec.child] using this
  · rw [serveAll_append]
    exact serveHTTP_histSum _ _ _ (main_dispatch_app startEnv) _ _ _

/-! ## The in-flight gauge under interleaving -/

theorem card_sdiff_insert_left (A B : Finset Nat) (i : Nat) (hi : i ∉ A) (hB : B ⊆ A) :
    ((insert i A) \ B).card = (A \ B).card + 1 := by
  have hiB : i ∉ B := fun h => hi (hB h)
  rw [Finset.insert_sdiff_of_not_mem _ hiB, Finset.card_insert_of_not_mem]
  intro h
  exact hi (Finset.mem_sdiff.1 h).1

theorem card_sdiff_insert_right (A B : Finset Nat) (i : Nat) (hi : i ∈ A) (hiB : i ∉ B) :
    (A \ insert i B).card + 1 = (A \ B).card := by
  rw [Finset.sdiff_insert, Finset.card_erase_add_one]
  exact Finset.mem_sdiff.2 ⟨hi, hiB⟩

theorem entered_append (tr tr2 : List Event) : entered (tr ++ tr2) = entered tr ++ entered tr2 := by
  simp [entered]

theorem exited_append (tr tr2 : List Event) : exited (tr ++ tr2) = exited tr ++ exited tr2 := by
  simp [exited]

/-- An entry may follow a valid trace when the invocation has not entered. -/
theorem validFrom_enter (tr : List Event) (i : Nat) :
    ∀ started finished : List Nat, validFrom started finished tr = true →
      i ∉ started → i ∉ entered tr →
      validFrom started finished (tr ++ [.enter i]) = true := by
  induction tr with
  | nil =>
    intro started finished _ hs _
    simp [validFrom, hs]
  | cons e t ih =>
    intro started finished hv hs he
    cases e with
    | enter j =>
      simp only [validFrom, Bool.and_eq_true] at hv
      have hij : i ≠ j := by
        intro h; apply he; simp [entered, h]
      have he2 : i ∉ entered t := by
        intro h; apply he; simp only [entered, List.filterMap_cons] at h ⊢; simp [h]
      simp only [List.cons_append, validFrom, Bool.and_eq_true]
      exact ⟨hv.1, ih _ _ hv.2 (by simp [hij, hs]) he2⟩
    | exit j =>
      simp only [validFrom, Bool.and_eq_true] at hv
      have he2 : i ∉ entered t := by
        intro h; apply he; simpa [entered] using h
      simp only [List.cons_append, validFrom, Bool.and_eq_true]
      exact ⟨hv.1, ih _ _ hv.2 hs he2⟩

/-- An exit may follow a valid trace when the invocation has entered and has
not exited. -/
theorem validFrom_exit (tr : List Event) (i : Nat) :
    ∀ started finished : List Nat, validFrom started finished tr = true →
      (i ∈ started ∨ i ∈ entered tr) → i ∉ finished → i ∉ exited tr →
      validFrom started finished (tr ++ [.exit i]) = true := by
  induction tr with
  | nil =>
    intro started finished _ hs hf _
    have hs2 : i ∈ started := by simpa [entered] using hs
    simp [validFrom, hs2, hf]
  | cons e t ih =>
    intro started finished hv hs hf hx
    cases e with
    | enter j =>
      simp only [validFrom, Bool.and_eq_true] at hv
      have hx2 : i ∉ exited t := by
        intro h; apply hx; simpa [exited] using h
      have hs2 : i ∈ j :: started ∨ i ∈ entered t := by
        rcases hs with h | h
        · left; simp [h]
        · simp only [entered, List.filterMap_cons, List.mem_cons] at h
          rcases h with h | h
          · left; simp [h]
          · right; exact h
      simp only [List.cons_append, validFrom, Bool.and_eq_true]
      exact ⟨hv.1, ih _ _ hv.2 hs2 hf hx2⟩
    | exit j =>
      simp only [validFrom, Bool.and_eq_true] at hv
      have hij : i ≠ j := by
        intro h; apply hx; simp [exited, h]
      have hx2 : i ∉ exited t := by
        intro h; apply hx; simp only [exited, List.filterMap_cons] at h ⊢; simp [h]
      have hs2 : i ∈ started ∨ i ∈ entered t := by
        rcases hs with h | h
        · left; exact h
        · right; simpa [entered] using h
      simp only [List.cons_append, validFrom, Bool.and_eq_true]
      exact ⟨hv.1, ih _ _ hv.2 hs2 (by simp [hij, hf]) hx2⟩

theorem Pool.Good.exited_subset {g : Int} {p : Pool} (h : Pool.Good g p) :
    (exited p.trace).toFinset ⊆ (entered p.trace).toFinset := by
  intro i hi
  have hi2 : i ∈ exited p.trace := by simpa using hi
  rcases h.phase i with h1 | h1 | h1
  · exact absurd hi2 h1.2.2
  · exact absurd hi2 h1.2.2
  · simpa using h1.2.1

theorem Pool.start_good (m : Metrics) (inv : Nat → Invocation) :
    Pool.Good m.httpRequestsInFlight (Pool.start m inv) := by
  refine ⟨fun i => Or.inl ⟨rfl, ?_, ?_⟩, rfl, ?_⟩
  · simp [Pool.start, entered]
  · simp [Pool.start, exited]
  · simp [Pool.start, inFlightCount, entered, exited]

theorem Pool.step_good (inv : Nat → Invocation) (g : Int) (p : Pool) (h : Pool.Good g p)
    (i : Nat) : Pool.Good g (Pool.step inv p i) := by
  have hsub := h.exited_subset
  rcases h.phase i with h1 | h1 | h1
  · -- the entry of invocation `i`
    obtain ⟨ht, he, hx⟩ := h1
    have htr : (Pool.step inv p i).trace = p.trace ++ [.enter i] := by
      simp [Pool.step, ht, eventOf]
    have htodo : (Pool.step inv p i).todo = Function.update p.todo i [.body, .deferred] := by
      simp [Pool.step, ht]
    have hg : (Pool.step inv p i).metrics.httpRequestsInFlight
        = p.metrics.httpRequestsInFlight + 1 := by
      simp [Pool.step, ht, appHandlerStep, Metrics.inFlightInc]
    refine ⟨fun j => ?_, ?_, ?_⟩
    · rw [htr, htodo, entered_append, exited_append]
      by_cases hj : j = i
      · subst hj
        right; left
        refine ⟨Or.inl (by simp), by simp [entered], ?_⟩
        simpa [exited] using hx
      · have hp := h.phase j
        simp only [Function.update_noteq hj]
        simpa [entered, exited, hj] using hp
    · rw [htr]
      exact validFrom_enter _ _ _ _ h.valid (by simp) he
    · rw [hg, h.gauge, htr]
      have hc := card_sdiff_insert_left _ _ i (by simpa using he) hsub
      have he2 : (entered (p.trace ++ [Event.enter i])).toFinset
          = insert i (entered p.trace).toFinset := by
        have e : entered (p.trace ++ [Event.enter i]) = entered p.trace ++ [i] := by
          rw [entered_append]; rfl
        rw [e]; ext x; simp [or_comm]
      have hx2 : exited (p.trace ++ [Event.enter i]) = exited p.trace := by
        simp [exited_append, exited]
      simp only [inFlightCount, he2, hx2, hc]
      push_cast
      ring
  · -- the body or the exit of invocation `i`
    obtain ⟨ht, he, hx⟩ := h1
    rcases ht with ht | ht
    · have htr : (Pool.step inv p i).trace = p.trace := by
        simp [Pool.step, ht, eventOf]
      have htodo : (Pool.step inv p i).todo = Function.update p.todo i [.deferred] := by
        simp [Pool.step, ht]
      have hg : (Pool.step inv p i).metrics.httpRequestsInFlight
          = p.metrics.httpRequestsInFlight := by
        simp [Pool.step, ht, appHandlerStep, appHandlerBody_inFlight]
      refine ⟨fun j => ?_, ?_, ?_⟩
      · rw [htr, htodo]
        by_cases hj : j = i
        · subst hj
          right; left
          exact ⟨Or.inr (by simp), he, hx⟩
        · simp only [Function.update_noteq hj]
          exact h.phase j
      · rw [htr]; exact h.valid
      · rw [hg, htr]; exact h.gauge
    · have htr : (Pool.step inv p i).trace = p.trace ++ [.exit i] := by
        simp [Pool.step, ht, eventOf]
      have htodo : (Pool.step inv p i).todo = Function.update p.todo i [] := by
        simp [Pool.step, ht]
      have hg : (Pool.step inv p i).metrics.httpRequestsInFlight
          = p.metrics.httpRequestsInFlight - 1 := by
        simp [Pool.step, ht, appHandlerStep, Metrics.inFlightDec]
      refine ⟨fun j => ?_, ?_, ?_⟩
      · rw [htr, htodo, entered_append, exited_append]
        by_cases hj : j = i
        · subst hj
          right; right
          refine ⟨by simp, ?_, by simp [exited]⟩
          simpa [entered] using he
        · have hp := h.phase j
          simp only [Function.update_noteq hj]
          simpa [entered, exited, hj] using hp
      · rw [htr]
        exact validFrom_exit _ _ _ _ h.valid (Or.inr he) (by simp) hx
      · rw [hg, h.gauge, htr]
        have hc := card_sdiff_insert_right _ _ i
          (show i ∈ (entered p.trace).toFinset by simpa using he)
          (show i ∉ (exited p.trace).toFinset by simpa using hx)
        have he2 : entered (p.trace ++ [Event.exit i]) = entered p.trace := by
          simp [entered_append, entered]
        have hx2 : (exited (p.trace ++ [Event.exit i])).toFinset
            = insert i (exited p.trace).toFinset := by
          have e : exited (p.trace ++ [Event.exit i]) = exited p.trace ++ [i] := by
            rw [exited_append]; rfl
          rw [e]; ext x; simp [or_comm]
        simp only [inFlightCount, he2, hx2]
        have hc2 : ((((entered p.trace).toFinset \ insert i (exited p.trace).toFinset).card
            : Int) + 1) = (((entered p.trace).toFinset \ (exited p.trace).toFinset).card : Int) := by
          exact_mod_cast hc
        linarith
  · -- invocation `i` has returned
    have hs : Pool.step inv p i = p := by simp [Pool.step, h1.1]
    rw [hs]; exact h

theorem runSchedule_good (inv : Nat → Invocation) (g : Int) (sched : List Nat) :
    ∀ p : Pool, Pool.Good g p → Pool.Good g (runSchedule inv p sched) := by
  induction sched with
  | nil => intro p h; exact h
  | cons i t ih => intro p h; exact ih _ (Pool.step_good inv g p h i)

/-- An invocation that runs alone runs `appHandler`. -/
theorem runSchedule_alone (inv : Nat → Invocation) (m : Metrics) (i : Nat) :
    (runSchedule inv (Pool.start m inv) [i, i, i]).state i
        = appHandler (inv i).lib (inv i).env (inv i).clk m (inv i).w (inv i).r
      ∧ (runSchedule inv (Pool.start m inv) [i, i, i]).metrics
        = (appHandler (inv i).lib (inv i).env (inv i).clk m (inv i).w (inv i).r).metrics := by
  constructor <;>
    simp [runSchedule, Pool.step, Pool.start, appHandlerSteps, appHandler, appHandlerStep]

/-- C4. Invocations of `appHandler` run interleaved on one registry whose gauge
starts at 0, each running the stretches of `appHandler` in order (an invocation
run alone is `appHandler`).  In every interleaving, however far it has run, the
entries and exits form a well-formed trace (an invocation exits at most once and
only after it entered), and the gauge equals the number of invocations that have
entered and not yet exited, so it is at least 0; while at most N invocations are
in flight the gauge is within [0, N]. -/
theorem inFlight_gauge_counts_invocations (inv : Nat → Invocation) (m : Metrics)
    (hm : m.httpRequestsInFlight = 0) (sched : List Nat) :
    wellFormed (runSchedule inv (Pool.start m inv) sched).trace = true
      ∧ (runSchedule inv (Pool.start m inv) sched).metrics.httpRequestsInFlight
        = (inFlightCount (runSchedule inv (Pool.start m inv) sched).trace : Int)
      ∧ 0 ≤ (runSchedule inv (Pool.start m inv) sched).metrics.httpRequestsInFlight
      ∧ (∀ N : Nat, inFlightCount (runSchedule inv (Pool.start m inv) sched).trace ≤ N →
          (runSchedule inv (Pool.start m inv) sched).metrics.httpRequestsInFlight ≤ (N : Int))
      ∧ (∀ i : Nat, (runSchedule inv (Pool.start m inv) [i, i, i]).state i
          = appHandler (inv i).lib (inv i).env (inv i).clk m (inv i).w (inv i).r) := by
  have hgood : Pool.Good 0 (runSchedule inv (Pool.start m inv) sched) := by
    have := runSchedule_good inv m.httpRequestsInFlight sched _ (Pool.start_good m inv)
    rwa [hm] at this
  have hg : (runSchedule inv (Pool.start m inv) sched).metrics.httpRequestsInFlight
      = (inFlightCount (runSchedule inv (Pool.start m inv) sched).trace : Int) := by
    rw [hgood.gauge, zero_add]
  refine ⟨hgood.valid, hg, ?_, fun N hN => ?_, fun i => (runSchedule_alone inv m i).1⟩
  · rw [hg]; exact Int.ofNat_nonneg _
  · rw [hg]; exact_mod_cast hN

/-- C4 (witness). Invocations 1 and 2 enter, then 1 runs its body and exits:
the trace is `enter 1, enter 2, exit 1`, one invocation is in flight and the
gauge reads 1. -/
theorem inFlight_gauge_counts_invocations_witness :
    (runSchedule sampleInvocations (Pool.start Metrics.init sampleInvocations)
        [1, 2, 1, 1]).trace = [.enter 1, .enter 2, .exit 1]
      ∧ (runSchedule sampleInvocations (Pool.start Metrics.init sampleInvocations)
          [1, 2, 1, 1]).metrics.httpRequestsInFlight
        = (inFlightCount (runSchedule sampleInvocations
            (Pool.start Metrics.init sampleInvocations) [1, 2, 1, 1]).trace : Int)
      ∧ inFlightCount (runSchedule sampleInvocations
          (Pool.start Metrics.init sampleInvocations) [1, 2, 1, 1]).trace = 1 :=
  ⟨by decide,
    (inFlight_gauge_counts_invocations sampleInvocations Metrics.init rfl [1, 2, 1, 1]).2.1,
    by decide⟩

end GolangServer
